import Mathlib

/-!
Shallow embedding of the grid-trading / risk-engine / whale-tracker core of
the `trading-engine` crate.  Floating-point (`f64`) values are modelled as
exact rationals (`ℚ`), except the whale price impact which uses `ℝ` because
the source applies a real exponent (`powf(1.5)`).  `HashMap` state is
modelled as an association list, `Vec` as `List`.  Nondeterministic
environment inputs (wall-clock timestamps, UUIDs, the database) are passed
in as explicit parameters; UUID-based order ids carry no semantic weight in
the source and are modelled as the empty string.
-/

namespace TradingEngine

/-! ## Grid trading data model (src/grid_trading.rs) -/

inductive OrderType
  | Buy
  | Sell
deriving DecidableEq, Repr

inductive OrderStatus
  | Pending
  | Active
  | Filled
  | Cancelled
deriving DecidableEq, Repr

inductive GridStatus
  | Active
  | Paused
  | Stopped
  | Completed
deriving DecidableEq, Repr

structure GridOrder where
  order_id : String
  order_type : OrderType
  price : ℚ
  amount : ℚ
  status : OrderStatus
  filled_at : Option ℤ
  filled_price : Option ℚ
  profit : Option ℚ
deriving DecidableEq, Repr

structure GridStrategy where
  strategy_id : String
  user_id : ℤ
  chain : String
  token : String
  token_symbol : String
  lower_price : ℚ
  upper_price : ℚ
  grid_count : ℕ
  grid_spacing : ℚ
  investment_amount : ℚ
  status : GridStatus
  created_at : ℤ
  last_price : ℚ
  total_profit : ℚ
  total_trades : ℕ
  active_orders : List GridOrder
  completed_orders : List GridOrder
deriving DecidableEq, Repr

structure CreateGridRequest where
  user_id : ℤ
  chain : String
  token : String
  token_symbol : String
  lower_price : ℚ
  upper_price : ℚ
  grid_count : ℕ
  investment_amount : ℚ
deriving DecidableEq, Repr

/-- Embedding of `create_grid_strategy` (grid_trading.rs:109-165).  `now` stands for
`Utc::now().timestamp()`. -/
def create_grid_strategy (request : CreateGridRequest) (now : ℤ) :
    Except String GridStrategy :=
  if request.lower_price ≥ request.upper_price then
    .error "Lower price must be less than upper price"
  else if request.grid_count < 2 then
    .error "Grid count must be at least 2"
  else if request.investment_amount ≤ 0 then
    .error "Investment amount must be positive"
  else
    let price_range := request.upper_price - request.lower_price
    let grid_spacing := price_range / ((request.grid_count - 1 : ℕ) : ℚ)
    let amount_per_level := request.investment_amount / (request.grid_count : ℚ)
    let active_orders := (List.range request.grid_count).map (fun (i : ℕ) =>
      { order_id := ""
        order_type := .Buy
        price := request.lower_price + grid_spacing * (i : ℚ)
        amount := amount_per_level
        status := .Pending
        filled_at := none
        filled_price := none
        profit := none : GridOrder })
    .ok
      { strategy_id := ""
        user_id := request.user_id
        chain := request.chain
        token := request.token
        token_symbol := request.token_symbol
        lower_price := request.lower_price
        upper_price := request.upper_price
        grid_count := request.grid_count
        grid_spacing := grid_spacing
        investment_amount := request.investment_amount
        status := .Active
        created_at := now
        last_price := (request.lower_price + request.upper_price) / 2
        total_profit := 0
        total_trades := 0
        active_orders := active_orders
        completed_orders := [] }

/-- Indices of active orders satisfying a fill predicate, ascending, as the
two index-collection loops in `update_grid_with_price` produce them. -/
def matchIdxs (p : GridOrder → Bool) (l : List GridOrder) : List ℕ :=
  (List.range l.length).filter (fun i =>
    match l[i]? with
    | some o => p o
    | none => false)

/-- Fill predicate of the buy loop (grid_trading.rs:191-198). -/
def buyFillPred (current_price : ℚ) (o : GridOrder) : Bool :=
  o.order_type = .Buy ∧ (o.status = .Pending ∨ o.status = .Active) ∧
    current_price ≤ o.price

/-- Fill predicate of the sell loop (grid_trading.rs:230-237). -/
def sellFillPred (current_price : ℚ) (o : GridOrder) : Bool :=
  o.order_type = .Sell ∧ (o.status = .Pending ∨ o.status = .Active) ∧
    current_price ≥ o.price

/-- One iteration of the buy-fill loop body (grid_trading.rs:201-226): remove
the order at `idx`, mark it filled at `current_price`, push a pending Sell
one grid level above its limit price when that stays within the range, then
archive the fill.  The accumulator is `(strategy, new_orders)`. -/
def processBuyFill (current_price : ℚ) (now : ℤ)
    (acc : GridStrategy × List GridOrder) (idx : ℕ) :
    GridStrategy × List GridOrder :=
  let st := acc.1
  match st.active_orders[idx]? with
  | none => acc
  | some order =>
    let filled : GridOrder :=
      { order with
        status := .Filled
        filled_at := some now
        filled_price := some current_price }
    let active1 := st.active_orders.eraseIdx idx
    let sell_price := order.price + st.grid_spacing
    if sell_price ≤ st.upper_price then
      let sell : GridOrder :=
        { order_id := ""
          order_type := .Sell
          price := sell_price
          amount := order.amount
          status := .Pending
          filled_at := none
          filled_price := none
          profit := none }
      ({ st with
          active_orders := active1 ++ [sell]
          completed_orders := st.completed_orders ++ [filled]
          total_trades := st.total_trades + 1 },
        acc.2 ++ [sell])
    else
      ({ st with
          active_orders := active1
          completed_orders := st.completed_orders ++ [filled]
          total_trades := st.total_trades + 1 },
        acc.2)

/-- One iteration of the sell-fill loop body (grid_trading.rs:240-274):
remove the order at `idx`, mark it filled, compute profit against the FIRST
completed Buy whose price is below the sell's limit price (`Iterator::find`),
push a pending Buy one grid level below when in range, archive the fill. -/
def processSellFill (current_price : ℚ) (now : ℤ)
    (acc : GridStrategy × List GridOrder) (idx : ℕ) :
    GridStrategy × List GridOrder :=
  let st := acc.1
  match st.active_orders[idx]? with
  | none => acc
  | some order =>
    let filled0 : GridOrder :=
      { order with
        status := .Filled
        filled_at := some now
        filled_price := some current_price }
    let active1 := st.active_orders.eraseIdx idx
    let matchedBuy := st.completed_orders.find? (fun o =>
      o.order_type = .Buy ∧ o.price < order.price)
    let (filled, total_profit) :=
      match matchedBuy with
      | some buy_order =>
        ({ filled0 with
            profit := some ((order.price - buy_order.price) / buy_order.price * 100) },
          st.total_profit + order.amount * (order.price - buy_order.price))
      | none => (filled0, st.total_profit)
    let buy_price := order.price - st.grid_spacing
    if buy_price ≥ st.lower_price then
      let buy : GridOrder :=
        { order_id := ""
          order_type := .Buy
          price := buy_price
          amount := order.amount
          status := .Pending
          filled_at := none
          filled_price := none
          profit := none }
      ({ st with
          active_orders := active1 ++ [buy]
          completed_orders := st.completed_orders ++ [filled]
          total_profit := total_profit
          total_trades := st.total_trades + 1 },
        acc.2 ++ [buy])
    else
      ({ st with
          active_orders := active1
          completed_orders := st.completed_orders ++ [filled]
          total_profit := total_profit
          total_trades := st.total_trades + 1 },
        acc.2)

/-- Embedding of `update_grid_with_price` (grid_trading.rs:168-277).  Returns the updated
strategy together with the `new_orders` vector the Rust function returns.
The Rust code collects matching indices ascending and then processes them in
reverse (`orders_to_fill.iter().rev()`), which keeps the remaining indices
valid across `Vec::remove`; the fold below replays exactly that order. -/
def update_grid_with_price (strategy : GridStrategy) (current_price : ℚ)
    (now : ℤ) : GridStrategy × List GridOrder :=
  let st := { strategy with last_price := current_price }
  if current_price < st.lower_price ∨ current_price > st.upper_price then
    (if st.status = .Active then { st with status := .Paused } else st, [])
  else
    let st := if st.status = .Paused then { st with status := .Active } else st
    let buyIdxs := matchIdxs (buyFillPred current_price) st.active_orders
    let acc1 := buyIdxs.reverse.foldl (processBuyFill current_price now) (st, [])
    let sellIdxs := matchIdxs (sellFillPred current_price) acc1.1.active_orders
    let acc2 := sellIdxs.reverse.foldl (processSellFill current_price now)
      (acc1.1, acc1.2)
    acc2

/-- Embedding of `pause_grid` (grid_trading.rs:332-334): unconditionally sets Paused. -/
def pause_grid (strategy : GridStrategy) : GridStrategy :=
  { strategy with status := .Paused }

/-- Embedding of `resume_grid` (grid_trading.rs:336-340): Active only from Paused. -/
def resume_grid (strategy : GridStrategy) : GridStrategy :=
  if strategy.status = .Paused then { strategy with status := .Active }
  else strategy

/-- Embedding of `stop_grid` (grid_trading.rs:342-350): set Stopped and cancel every
pending/active order. -/
def stop_grid (strategy : GridStrategy) : GridStrategy :=
  { strategy with
    status := .Stopped
    active_orders := strategy.active_orders.map (fun o =>
      if o.status = .Pending ∨ o.status = .Active then
        { o with status := .Cancelled }
      else o) }

/-- Embedding of `adjust_grid_for_whale_activity` (grid_trading.rs:354-398).  The Rust
action strings interpolate numbers via `format!`; the action list is
modelled by fixed tags since no claim depends on the message text. -/
def adjust_grid_for_whale_activity (strategy : GridStrategy)
    (whale_impact : String) (price_impact current_price : ℚ) :
    GridStrategy × List String :=
  if whale_impact = "critical" then
    if strategy.status = .Active then
      ({ strategy with status := .Paused },
        ["Grid paused due to critical whale activity"])
    else (strategy, [])
  else if whale_impact = "high" then
    let volatility_multiplier := 1 + min (price_impact / 100) (1/2)
    let st := { strategy with
      grid_spacing := strategy.grid_spacing * volatility_multiplier }
    let price_change_pct :=
      |(current_price - st.last_price) / st.last_price|
    if price_change_pct > 5/100 then
      let range_expansion := (st.upper_price - st.lower_price) * (2/10)
      ({ st with
          lower_price := max (st.lower_price - range_expansion / 2) 0
          upper_price := st.upper_price + range_expansion / 2 },
        ["Grid range expanded due to whale activity",
         "Grid spacing widened for high volatility"])
    else
      (st, ["Grid spacing widened for high volatility"])
  else if whale_impact = "medium" then
    ({ strategy with grid_spacing := strategy.grid_spacing * (11/10) },
      ["Grid spacing slightly widened"])
  else (strategy, [])

/-! ## Risk engine (src/risk_engine.rs)

The database round-trips of the Rust code (`get_risk_profile`, the open
positions `COUNT(*)` query) are modelled as explicit inputs: the profile the
fetch returns and the count the query returns.  `Utc::now().format("%Y-%m-%d")`
is the explicit `today` input.  The shared `HashMap<i64, DailyStats>` is an
association list threaded through as state. -/

structure RiskProfile where
  user_id : ℤ
  max_trade_size_usd : ℚ
  max_daily_loss_usd : ℚ
  max_open_positions : ℤ
  default_stop_loss_percent : ℚ
  default_take_profit_percent : ℚ
  kill_switch_enabled : Bool
  blacklist_enabled : Bool
  last_updated : ℤ
deriving DecidableEq, Repr

structure DailyStats where
  date : String
  total_loss_usd : ℚ
  trade_count : ℤ
deriving DecidableEq, Repr

structure RiskState where
  daily_stats : List (ℤ × DailyStats)
  global_blacklist : List String
  dev_blacklist : List String
deriving DecidableEq, Repr

inductive RiskError
  | KillSwitchActive
  | MaxTradeSizeExceeded (attempted max : ℚ)
  | MaxDailyLossExceeded (current_loss max : ℚ)
  | MaxOpenPositionsExceeded (current max : ℤ)
  | TokenBlacklisted (token : String)
  | DevBlacklisted (dev : String)
  | InsufficientLiquidity
  | DatabaseError (e : String)
deriving DecidableEq, Repr

/-- Replace-or-append insertion, modelling `HashMap` entry updates. -/
def statsInsert : List (ℤ × DailyStats) → ℤ → DailyStats → List (ℤ × DailyStats)
  | [], k, v => [(k, v)]
  | (k', v') :: rest, k, v =>
    if k' = k then (k, v) :: rest else (k', v') :: statsInsert rest k v

/-- Embedding of `check_trade_risk` (risk_engine.rs:87-153).  Returns the result paired
with the (possibly mutated) shared state: step 5's `entry(...).or_insert` and
its stale-date reset write into the shared daily-stats map even on the error
paths that follow. -/
def check_trade_risk (user_id : ℤ) (profile : RiskProfile)
    (token_address : String) (amount_usd : ℚ) (open_positions_count : ℤ)
    (today : String) (risk_state : RiskState) :
    Except RiskError Unit × RiskState :=
  if profile.kill_switch_enabled then
    (.error .KillSwitchActive, risk_state)
  else if profile.blacklist_enabled ∧
      token_address ∈ risk_state.global_blacklist then
    (.error (.TokenBlacklisted token_address), risk_state)
  else if amount_usd > profile.max_trade_size_usd then
    (.error (.MaxTradeSizeExceeded amount_usd profile.max_trade_size_usd),
      risk_state)
  else
    let stats0 := (risk_state.daily_stats.lookup user_id).getD
      { date := today, total_loss_usd := 0, trade_count := 0 }
    let stats := if stats0.date ≠ today then
        { date := today, total_loss_usd := 0, trade_count := 0 : DailyStats }
      else stats0
    let state1 := { risk_state with
      daily_stats := statsInsert risk_state.daily_stats user_id stats }
    if stats.total_loss_usd ≥ profile.max_daily_loss_usd then
      (.error (.MaxDailyLossExceeded stats.total_loss_usd
        profile.max_daily_loss_usd), state1)
    else if open_positions_count ≥ profile.max_open_positions then
      (.error (.MaxOpenPositionsExceeded open_positions_count
        profile.max_open_positions), state1)
    else (.ok (), state1)

/-- Embedding of `record_trade_result` (risk_engine.rs:155-166): on a loss, add the
absolute PnL to the user's existing daily-stats entry (`get_mut`: absent
entries are NOT created). -/
def record_trade_result (user_id : ℤ) (pnl_usd : ℚ)
    (risk_state : RiskState) : RiskState :=
  if pnl_usd < 0 then
    match risk_state.daily_stats.lookup user_id with
    | some stats =>
      { risk_state with
        daily_stats := statsInsert risk_state.daily_stats user_id
          { stats with total_loss_usd := stats.total_loss_usd + |pnl_usd| } }
    | none => risk_state
  else risk_state

/-! ## Whale tracker (src/whale_tracker.rs) -/

/-- Per-chain liquidity constant of `calculate_price_impact`
(whale_tracker.rs:192-197). -/
def liquidityK (chain : String) : ℝ :=
  if chain = "solana" then 100000
  else if chain = "eth" ∨ chain = "ethereum" then 500000
  else if chain = "bsc" ∨ chain = "binance" then 250000
  else 100000

/-- Embedding of `calculate_price_impact` (whale_tracker.rs:189-201):
`(size/K) * (1 + (size/1e6).powf(1.5))`.  For a nonnegative base `x`,
`x.powf(1.5) = Real.sqrt (x^3)`; trade sizes are nonnegative USD amounts. -/
noncomputable def calculate_price_impact (size_usd : ℝ) (chain : String) : ℝ :=
  (size_usd / liquidityK chain) *
    (1 + Real.sqrt ((size_usd / 1000000) ^ 3))

/-! ## Derived notions used by the stated properties -/

/-- Apply a sequence of `(price, timestamp)` ticks through
`update_grid_with_price`, keeping only the strategy state. -/
def applyTicks (st : GridStrategy) : List (ℚ × ℤ) → GridStrategy
  | [] => st
  | (p, t) :: rest => applyTicks (update_grid_with_price st p t).1 rest

/-- Every active order's price lies within the strategy's band. -/
def ordersInRange (st : GridStrategy) : Prop :=
  ∀ o ∈ st.active_orders,
    st.lower_price ≤ o.price ∧ o.price ≤ st.upper_price

/-- The grid invariant: positive spacing and all active orders in range. -/
def gridInv (st : GridStrategy) : Prop :=
  0 < st.grid_spacing ∧ ordersInRange st

/-- The archived form an order takes when it fills: status Filled with the
fill time and the tick price recorded (grid_trading.rs:202-205, 241-244). -/
def fillOrder (current_price : ℚ) (now : ℤ) (o : GridOrder) : GridOrder :=
  { o with
    status := .Filled
    filled_at := some now
    filled_price := some current_price }

/-- The pending Sell a buy fill spawns, one grid step above the filled
order's LIMIT price, provided that price stays within the band
(grid_trading.rs:207-222); `none` when the guard fails. -/
def spawnSell (grid_spacing upper_price : ℚ) (o : GridOrder) :
    Option GridOrder :=
  if o.price + grid_spacing ≤ upper_price then
    some { order_id := ""
           order_type := .Sell
           price := o.price + grid_spacing
           amount := o.amount
           status := .Pending
           filled_at := none
           filled_price := none
           profit := none }
  else none

/-- The pending Buy a sell fill spawns, one grid step below the filled
order's limit price, provided that price stays within the band
(grid_trading.rs:255-270); `none` when the guard fails. -/
def spawnBuy (grid_spacing lower_price : ℚ) (o : GridOrder) :
    Option GridOrder :=
  if o.price - grid_spacing ≥ lower_price then
    some { order_id := ""
           order_type := .Buy
           price := o.price - grid_spacing
           amount := o.amount
           status := .Pending
           filled_at := none
           filled_price := none
           profit := none }
  else none

/-- One sell fill at the archive level (grid_trading.rs:240-253): the
filled Sell is archived with profit computed against the FIRST completed
Buy whose price is below the sell's limit price (`Iterator::find`), and
`amount * (sell - buy)` accrues to the running total; with no such Buy the
profit field is untouched and the total unchanged.  The accumulator is
`(completed_orders, total_profit)`. -/
def sellStep (current_price : ℚ) (now : ℤ) (acc : List GridOrder × ℚ)
    (o : GridOrder) : List GridOrder × ℚ :=
  match acc.1.find? (fun b => b.order_type = .Buy ∧ b.price < o.price) with
  | some b =>
    (acc.1 ++ [{ fillOrder current_price now o with
        profit := some ((o.price - b.price) / b.price * 100) }],
      acc.2 + o.amount * (o.price - b.price))
  | none => (acc.1 ++ [fillOrder current_price now o], acc.2)

/-- The pending/active Buy orders a tick at `p` fills: the collection loop
of the buy pass (grid_trading.rs:190-198). -/
def buyFills (p : ℚ) (st : GridStrategy) : List GridOrder :=
  st.active_orders.filter (buyFillPred p)

/-- The order book after the buy pass (grid_trading.rs:200-226): orders the
tick does not fill stay in place, and the Sells spawned by the fills (one
per fill passing the in-band guard, processed from the highest book index
down) are appended at the end. -/
def postBuyBook (p : ℚ) (st : GridStrategy) : List GridOrder :=
  st.active_orders.filter (fun o => !buyFillPred p o) ++
    (buyFills p st).reverse.filterMap
      (spawnSell st.grid_spacing st.upper_price)

/-- The Sell orders the subsequent sell pass fills (grid_trading.rs:228-237):
the pending/active Sells of the post-buy book with price at or below the
tick. -/
def sellFills (p : ℚ) (st : GridStrategy) : List GridOrder :=
  (postBuyBook p st).filter (sellFillPred p)

/-- The post-creation mutators a user can interleave on a strategy. -/
inductive GridAction
  | pause
  | resume
  | tick (price : ℚ) (now : ℤ)
deriving DecidableEq, Repr

def applyGridAction (st : GridStrategy) : GridAction → GridStrategy
  | .pause => pause_grid st
  | .resume => resume_grid st
  | .tick p t => (update_grid_with_price st p t).1

def applyGridActions (st : GridStrategy) : List GridAction → GridStrategy
  | [] => st
  | a :: rest => applyGridActions (applyGridAction st a) rest

/-- The loss the risk engine's daily-loss check effectively compares against
the limit: the stored entry's accumulated loss when it carries today's date,
`0` after the lazy insert or the stale-date rollover. -/
def todayLoss (risk_state : RiskState) (user_id : ℤ) (today : String) : ℚ :=
  match risk_state.daily_stats.lookup user_id with
  | some s => if s.date = today then s.total_loss_usd else 0
  | none => 0

/-! ## Concrete inputs for witnesses and counterexamples -/

/-- A small valid creation request: band `[1, 2]`, 3 levels, $30. -/
def reqW : CreateGridRequest :=
  { user_id := 1, chain := "solana", token := "tok", token_symbol := "TOK",
    lower_price := 1, upper_price := 2, grid_count := 3,
    investment_amount := 30 }

/-- A resting Buy order strictly inside the `[1, 2]` band. -/
def oBuyW : GridOrder :=
  { order_id := "", order_type := .Buy, price := 3/2, amount := 10,
    status := .Pending, filled_at := none, filled_price := none,
    profit := none }

/-- A strategy state with one resting Buy order strictly inside the band,
used to exercise a buy fill below the order's limit price. -/
def stBuyW : GridStrategy :=
  { strategy_id := "s", user_id := 1, chain := "solana", token := "tok",
    token_symbol := "TOK", lower_price := 1, upper_price := 2,
    grid_count := 3, grid_spacing := 1/2, investment_amount := 30,
    status := .Active, created_at := 0, last_price := 3/2,
    total_profit := 0, total_trades := 0,
    active_orders := [oBuyW],
    completed_orders := [] }

/-- A resting Sell order at 3 inside the `[1, 4]` band. -/
def oSellW : GridOrder :=
  { order_id := "", order_type := .Sell, price := 3, amount := 10,
    status := .Pending, filled_at := none, filled_price := none,
    profit := none }

/-- The earlier of two completed Buy fills, at price 1. -/
def bFill1 : GridOrder :=
  { order_id := "", order_type := .Buy, price := 1, amount := 10,
    status := .Filled, filled_at := some 0, filled_price := some 1,
    profit := none }

/-- The later of two completed Buy fills, at price 2. -/
def bFill2 : GridOrder :=
  { order_id := "", order_type := .Buy, price := 2, amount := 10,
    status := .Filled, filled_at := some 0, filled_price := some 2,
    profit := none }

/-- A strategy state with two completed Buy fills (prices 1 then 2) and one
resting Sell at 3, used to exercise the profit-matching lookup. -/
def stSellW : GridStrategy :=
  { strategy_id := "s", user_id := 1, chain := "solana", token := "tok",
    token_symbol := "TOK", lower_price := 1, upper_price := 4,
    grid_count := 4, grid_spacing := 1, investment_amount := 40,
    status := .Active, created_at := 0, last_price := 2,
    total_profit := 0, total_trades := 2,
    active_orders := [oSellW],
    completed_orders := [bFill1, bFill2] }

/-- The strategy `create_grid_strategy reqW 0` returns: band `[1, 2]`,
spacing `1/2`, three pending Buy orders of 10 each. -/
def stW : GridStrategy :=
  { strategy_id := "", user_id := 1, chain := "solana", token := "tok",
    token_symbol := "TOK", lower_price := 1, upper_price := 2,
    grid_count := 3, grid_spacing := 1/2, investment_amount := 30,
    status := .Active, created_at := 0, last_price := 3/2,
    total_profit := 0, total_trades := 0,
    active_orders := [
      { order_id := "", order_type := .Buy, price := 1, amount := 10,
        status := .Pending, filled_at := none, filled_price := none,
        profit := none },
      { order_id := "", order_type := .Buy, price := 3/2, amount := 10,
        status := .Pending, filled_at := none, filled_price := none,
        profit := none },
      { order_id := "", order_type := .Buy, price := 2, amount := 10,
        status := .Pending, filled_at := none, filled_price := none,
        profit := none }],
    completed_orders := [] }

/-- A strategy whose band sits just above zero, so a 20% range expansion
pushes the tentative new lower bound negative. -/
def stClampW : GridStrategy :=
  { strategy_id := "s", user_id := 1, chain := "solana", token := "tok",
    token_symbol := "TOK", lower_price := 1/100, upper_price := 2,
    grid_count := 3, grid_spacing := 1/2, investment_amount := 30,
    status := .Active, created_at := 0, last_price := 1,
    total_profit := 0, total_trades := 0, active_orders := [],
    completed_orders := [] }

/-- A default-limits risk profile (risk_engine.rs:26-40) for user 1. -/
def profileW : RiskProfile :=
  { user_id := 1, max_trade_size_usd := 100, max_daily_loss_usd := 50,
    max_open_positions := 5, default_stop_loss_percent := 15,
    default_take_profit_percent := 30, kill_switch_enabled := false,
    blacklist_enabled := true, last_updated := 0 }

/-- The default profile with the kill switch flipped on. -/
def profileKillW : RiskProfile :=
  { profileW with kill_switch_enabled := true }

/-- An empty shared risk state. -/
def riskStateW : RiskState :=
  { daily_stats := [], global_blacklist := [], dev_blacklist := [] }

/-- A risk state where user 1 already has a loss of $5 recorded today
(taking "2026-10-12" as today's date). -/
def statsW : DailyStats :=
  { date := "2026-10-12", total_loss_usd := 5, trade_count := 1 }

def rsW : RiskState :=
  { daily_stats := [(1, statsW)],
    global_blacklist := [], dev_blacklist := [] }

/-! ## Theorems -/

/-- The buy-fill loop body never touches the strategy's status, band or
spacing. -/
lemma processBuyFill_preserves (p : ℚ) (t : ℤ)
    (acc : GridStrategy × List GridOrder) (idx : ℕ) :
    (processBuyFill p t acc idx).1.status = acc.1.status ∧
    (processBuyFill p t acc idx).1.lower_price = acc.1.lower_price ∧
    (processBuyFill p t acc idx).1.upper_price = acc.1.upper_price ∧
    (processBuyFill p t acc idx).1.grid_spacing = acc.1.grid_spacing := by
  unfold processBuyFill
  dsimp only
  cases hidx : acc.1.active_orders[idx]? with
  | none => exact ⟨rfl, rfl, rfl, rfl⟩
  | some order =>
    dsimp only
    split_ifs <;> exact ⟨rfl, rfl, rfl, rfl⟩

/-- The sell-fill loop body never touches the strategy's status, band or
spacing. -/
lemma processSellFill_preserves (p : ℚ) (t : ℤ)
    (acc : GridStrategy × List GridOrder) (idx : ℕ) :
    (processSellFill p t acc idx).1.status = acc.1.status ∧
    (processSellFill p t acc idx).1.lower_price = acc.1.lower_price ∧
    (processSellFill p t acc idx).1.upper_price = acc.1.upper_price ∧
    (processSellFill p t acc idx).1.grid_spacing = acc.1.grid_spacing := by
  unfold processSellFill
  dsimp only
  cases hidx : acc.1.active_orders[idx]? with
  | none => exact ⟨rfl, rfl, rfl, rfl⟩
  | some order =>
    dsimp only
    split_ifs <;> exact ⟨rfl, rfl, rfl, rfl⟩

/-- Fold form of `processBuyFill_preserves`. -/
lemma foldl_processBuyFill_preserves (p : ℚ) (t : ℤ) (idxs : List ℕ)
    (acc : GridStrategy × List GridOrder) :
    (idxs.foldl (processBuyFill p t) acc).1.status = acc.1.status ∧
    (idxs.foldl (processBuyFill p t) acc).1.lower_price = acc.1.lower_price ∧
    (idxs.foldl (processBuyFill p t) acc).1.upper_price = acc.1.upper_price ∧
    (idxs.foldl (processBuyFill p t) acc).1.grid_spacing =
      acc.1.grid_spacing := by
  induction idxs generalizing acc with
  | nil => exact ⟨rfl, rfl, rfl, rfl⟩
  | cons i is ih =>
    obtain ⟨h1, h2, h3, h4⟩ := ih (processBuyFill p t acc i)
    obtain ⟨g1, g2, g3, g4⟩ := processBuyFill_preserves p t acc i
    exact ⟨h1.trans g1, h2.trans g2, h3.trans g3, h4.trans g4⟩

/-- Fold form of `processSellFill_preserves`. -/
lemma foldl_processSellFill_preserves (p : ℚ) (t : ℤ) (idxs : List ℕ)
    (acc : GridStrategy × List GridOrder) :
    (idxs.foldl (processSellFill p t) acc).1.status = acc.1.status ∧
    (idxs.foldl (processSellFill p t) acc).1.lower_price = acc.1.lower_price ∧
    (idxs.foldl (processSellFill p t) acc).1.upper_price = acc.1.upper_price ∧
    (idxs.foldl (processSellFill p t) acc).1.grid_spacing =
      acc.1.grid_spacing := by
  induction idxs generalizing acc with
  | nil => exact ⟨rfl, rfl, rfl, rfl⟩
  | cons i is ih =>
    obtain ⟨h1, h2, h3, h4⟩ := ih (processSellFill p t acc i)
    obtain ⟨g1, g2, g3, g4⟩ := processSellFill_preserves p t acc i
    exact ⟨h1.trans g1, h2.trans g2, h3.trans g3, h4.trans g4⟩

/-- A buy-fill step keeps the grid invariant: removed orders only shrink the
set, and a spawned Sell sits at `order.price + spacing`, which the guard
bounds by `upper` and positivity of the spacing bounds below by `lower`. -/
lemma processBuyFill_inv (p : ℚ) (t : ℤ)
    (acc : GridStrategy × List GridOrder) (idx : ℕ) (h : gridInv acc.1) :
    gridInv (processBuyFill p t acc idx).1 := by
  obtain ⟨hsp, hrange⟩ := h
  unfold processBuyFill
  dsimp only
  cases hidx : acc.1.active_orders[idx]? with
  | none => exact ⟨hsp, hrange⟩
  | some order =>
    have hmem : order ∈ acc.1.active_orders := by
      obtain ⟨hlt, hget⟩ := List.getElem?_eq_some.mp hidx
      exact hget ▸ List.getElem_mem hlt
    have hord := hrange order hmem
    dsimp only
    split_ifs with hsell
    · refine ⟨hsp, ?_⟩
      intro o ho
      rcases List.mem_append.mp ho with ho | ho
      · exact hrange o ((List.eraseIdx_sublist _ _).subset ho)
      · rcases List.mem_singleton.mp ho with rfl
        exact ⟨le_trans hord.1 (le_add_of_nonneg_right hsp.le), hsell⟩
    · exact ⟨hsp, fun o ho =>
        hrange o ((List.eraseIdx_sublist _ _).subset ho)⟩

/-- A sell-fill step keeps the grid invariant: a spawned Buy sits at
`order.price - spacing`, bounded below by the guard and above by `upper`
since the spacing is positive. -/
lemma processSellFill_inv (p : ℚ) (t : ℤ)
    (acc : GridStrategy × List GridOrder) (idx : ℕ) (h : gridInv acc.1) :
    gridInv (processSellFill p t acc idx).1 := by
  obtain ⟨hsp, hrange⟩ := h
  unfold processSellFill
  dsimp only
  cases hidx : acc.1.active_orders[idx]? with
  | none => exact ⟨hsp, hrange⟩
  | some order =>
    have hmem : order ∈ acc.1.active_orders := by
      obtain ⟨hlt, hget⟩ := List.getElem?_eq_some.mp hidx
      exact hget ▸ List.getElem_mem hlt
    have hord := hrange order hmem
    dsimp only
    split_ifs with hbuy
    · refine ⟨hsp, ?_⟩
      intro o ho
      rcases List.mem_append.mp ho with ho | ho
      · exact hrange o ((List.eraseIdx_sublist _ _).subset ho)
      · rcases List.mem_singleton.mp ho with rfl
        refine ⟨hbuy, ?_⟩
        have : order.price - acc.1.grid_spacing ≤ order.price :=
          sub_le_self _ hsp.le
        exact le_trans this hord.2
    · exact ⟨hsp, fun o ho =>
        hrange o ((List.eraseIdx_sublist _ _).subset ho)⟩

/-- Fold form of `processBuyFill_inv`. -/
lemma foldl_processBuyFill_inv (p : ℚ) (t : ℤ) (idxs : List ℕ)
    (acc : GridStrategy × List GridOrder) (h : gridInv acc.1) :
    gridInv (idxs.foldl (processBuyFill p t) acc).1 := by
  induction idxs generalizing acc with
  | nil => exact h
  | cons i is ih => exact ih _ (processBuyFill_inv p t acc i h)

/-- Fold form of `processSellFill_inv`. -/
lemma foldl_processSellFill_inv (p : ℚ) (t : ℤ) (idxs : List ℕ)
    (acc : GridStrategy × List GridOrder) (h : gridInv acc.1) :
    gridInv (idxs.foldl (processSellFill p t) acc).1 := by
  induction idxs generalizing acc with
  | nil => exact h
  | cons i is ih => exact ih _ (processSellFill_inv p t acc i h)

/-- A price tick keeps the grid invariant. -/
lemma update_grid_with_price_inv (st : GridStrategy) (p : ℚ) (t : ℤ)
    (h : gridInv st) : gridInv (update_grid_with_price st p t).1 := by
  obtain ⟨hsp, hrange⟩ := h
  unfold update_grid_with_price
  dsimp only
  split_ifs with hout hact hpaused
  · exact ⟨hsp, hrange⟩
  · exact ⟨hsp, hrange⟩
  · exact foldl_processSellFill_inv _ _ _ _
      (foldl_processBuyFill_inv _ _ _ _ ⟨hsp, hrange⟩)
  · exact foldl_processSellFill_inv _ _ _ _
      (foldl_processBuyFill_inv _ _ _ _ ⟨hsp, hrange⟩)

/-- Tick sequences keep the grid invariant. -/
lemma applyTicks_inv (st : GridStrategy) (ticks : List (ℚ × ℤ))
    (h : gridInv st) : gridInv (applyTicks st ticks) := by
  induction ticks generalizing st with
  | nil => exact h
  | cons pt rest ih =>
    exact ih _ (update_grid_with_price_inv st pt.1 pt.2 h)

/-- A freshly created strategy satisfies the grid invariant. -/
lemma create_grid_strategy_inv (req : CreateGridRequest) (now : ℤ)
    (st : GridStrategy) (h : create_grid_strategy req now = .ok st) :
    gridInv st := by
  unfold create_grid_strategy at h
  split_ifs at h with h1 h2 h3
  rw [Except.ok.injEq] at h
  subst h
  have hlt : req.lower_price < req.upper_price := lt_of_not_ge h1
  have hge : 2 ≤ req.grid_count := le_of_not_lt h2
  have hden : (0 : ℚ) < ((req.grid_count - 1 : ℕ) : ℚ) := by
    have : 1 ≤ req.grid_count - 1 := by omega
    exact_mod_cast Nat.lt_of_lt_of_le Nat.zero_lt_one this
  have hsp : 0 < (req.upper_price - req.lower_price) /
      ((req.grid_count - 1 : ℕ) : ℚ) :=
    div_pos (sub_pos.mpr hlt) hden
  refine ⟨hsp, ?_⟩
  intro o ho
  simp only [List.mem_map, List.mem_range] at ho
  obtain ⟨i, hi, rfl⟩ := ho
  constructor
  · have : (0 : ℚ) ≤ (req.upper_price - req.lower_price) /
        ((req.grid_count - 1 : ℕ) : ℚ) * (i : ℚ) :=
      mul_nonneg hsp.le (by positivity)
    dsimp only
    linarith
  · have hile : (i : ℚ) ≤ ((req.grid_count - 1 : ℕ) : ℚ) := by
      exact_mod_cast Nat.le_sub_one_of_lt hi
    have hmul : (req.upper_price - req.lower_price) /
          ((req.grid_count - 1 : ℕ) : ℚ) * (i : ℚ) ≤
        (req.upper_price - req.lower_price) /
          ((req.grid_count - 1 : ℕ) : ℚ) * ((req.grid_count - 1 : ℕ) : ℚ) :=
      mul_le_mul_of_nonneg_left hile hsp.le
    have hcancel : (req.upper_price - req.lower_price) /
          ((req.grid_count - 1 : ℕ) : ℚ) * ((req.grid_count - 1 : ℕ) : ℚ) =
        req.upper_price - req.lower_price :=
      div_mul_cancel₀ _ (ne_of_gt hden)
    dsimp only
    linarith

/-- C1: starting from any strategy `create_grid_strategy` returns, after any
sequence of `update_grid_with_price` ticks every active order's price lies in
`[lower_price, upper_price]`. -/
theorem grid_active_orders_in_band (req : CreateGridRequest) (now : ℤ)
    (st : GridStrategy) (h : create_grid_strategy req now = .ok st)
    (ticks : List (ℚ × ℤ)) : ordersInRange (applyTicks st ticks) :=
  (applyTicks_inv st ticks (create_grid_strategy_inv req now st h)).2

/-- C4: `create_grid_strategy` succeeds exactly when `lower < upper`,
`grid_count ≥ 2` and `investment > 0`; on success the strategy has
`grid_spacing * (grid_count - 1) = upper - lower` exactly, `grid_count`
pending Buy orders at the evenly spaced levels each sized
`investment / grid_count`, status Active, midpoint `last_price`, zero
profit and trades, and no completed orders. -/
theorem create_grid_strategy_spec (req : CreateGridRequest) (now : ℤ) :
    ((∃ st, create_grid_strategy req now = .ok st) ↔
      (req.lower_price < req.upper_price ∧ 2 ≤ req.grid_count ∧
        0 < req.investment_amount)) ∧
    (∀ st, create_grid_strategy req now = .ok st →
      st.lower_price = req.lower_price ∧
      st.upper_price = req.upper_price ∧
      st.grid_count = req.grid_count ∧
      st.grid_spacing * ((req.grid_count - 1 : ℕ) : ℚ) =
        req.upper_price - req.lower_price ∧
      st.active_orders.length = req.grid_count ∧
      (∀ i (h : i < st.active_orders.length),
        (st.active_orders.get ⟨i, h⟩).order_type = .Buy ∧
        (st.active_orders.get ⟨i, h⟩).status = .Pending ∧
        (st.active_orders.get ⟨i, h⟩).price =
          req.lower_price + st.grid_spacing * (i : ℚ) ∧
        (st.active_orders.get ⟨i, h⟩).amount =
          req.investment_amount / (req.grid_count : ℚ)) ∧
      st.status = .Active ∧
      st.last_price = (req.lower_price + req.upper_price) / 2 ∧
      st.total_profit = 0 ∧
      st.total_trades = 0 ∧
      st.completed_orders = []) := by
  constructor
  · constructor
    · rintro ⟨st, hst⟩
      unfold create_grid_strategy at hst
      split_ifs at hst with h1 h2 h3
      exact ⟨lt_of_not_ge h1, le_of_not_lt h2, lt_of_not_le h3⟩
    · rintro ⟨h1, h2, h3⟩
      cases hc : create_grid_strategy req now with
      | ok st => exact ⟨st, rfl⟩
      | error e =>
        unfold create_grid_strategy at hc
        rw [if_neg (not_le.mpr h1), if_neg (not_lt.mpr h2),
          if_neg (not_le.mpr h3)] at hc
        exact Except.noConfusion hc
  · intro st hst
    unfold create_grid_strategy at hst
    split_ifs at hst with h1 h2 h3
    rw [Except.ok.injEq] at hst
    subst hst
    have hcount : ((req.grid_count - 1 : ℕ) : ℚ) ≠ 0 := by
      have : 2 ≤ req.grid_count := le_of_not_lt h2
      have h1n : 1 ≤ req.grid_count - 1 := by omega
      exact_mod_cast Nat.one_le_iff_ne_zero.mp h1n
    refine ⟨rfl, rfl, rfl, div_mul_cancel₀ _ hcount, ?_, ?_, rfl, rfl,
      rfl, rfl, rfl⟩
    · rw [List.length_map, List.length_range]
    · intro i h
      simp [List.get_eq_getElem, List.getElem_map, List.getElem_range]

/-- Witness for C4 at the concrete request `reqW`. -/
theorem create_grid_strategy_spec_witness :
    ∃ st, create_grid_strategy reqW 0 = .ok st :=
  (create_grid_strategy_spec reqW 0).1.mpr
    ⟨by norm_num [reqW], by norm_num [reqW], by norm_num [reqW]⟩

end TradingEngine

namespace TradingEngine

/-- Witness for C1: the invariant holds for the concretely created strategy
after a concrete tick sequence. -/
theorem grid_active_orders_in_band_witness :
    ordersInRange (applyTicks stW [(3/2, 1), (1, 2), (2, 3)]) :=
  grid_active_orders_in_band reqW 0 stW
    (by norm_num [create_grid_strategy, reqW, stW, List.range_succ])
    [(3/2, 1), (1, 2), (2, 3)]


/-- A tick never moves a Stopped strategy out of Stopped: the only status
transitions in `update_grid_with_price` are Active→Paused (out of range) and
Paused→Active (back in range). -/
lemma update_grid_with_price_stopped (st : GridStrategy) (p : ℚ) (t : ℤ)
    (h : st.status = .Stopped) :
    (update_grid_with_price st p t).1.status = .Stopped := by
  unfold update_grid_with_price
  dsimp only
  split_ifs with hout hact hpause
  · exact absurd hact (by simp [h])
  · exact h
  · exact absurd hpause (by simp [h])
  · rw [(foldl_processSellFill_preserves _ _ _ _).1,
      (foldl_processBuyFill_preserves _ _ _ _).1]
    exact h

/-- The operation `resume_grid` never moves a Stopped strategy out of Stopped. -/
lemma resume_grid_stopped (st : GridStrategy) (h : st.status = .Stopped) :
    (resume_grid st).status = .Stopped := by
  unfold resume_grid
  rw [if_neg (by simp [h])]
  exact h

/-- Pause-free action sequences preserve the Stopped status. -/
lemma applyGridActions_no_pause_stopped (acts : List GridAction) :
    ∀ st : GridStrategy, st.status = .Stopped →
      (∀ a ∈ acts, a ≠ GridAction.pause) →
      (applyGridActions st acts).status = .Stopped := by
  induction acts with
  | nil => exact fun st h _ => h
  | cons a rest ih =>
    intro st h hacts
    have hrest : ∀ b ∈ rest, b ≠ GridAction.pause := fun b hb =>
      hacts b (List.mem_cons_of_mem a hb)
    have hstep : (applyGridAction st a).status = .Stopped := by
      cases a with
      | pause => exact absurd rfl (hacts .pause (List.mem_cons_self _ _))
      | resume => exact resume_grid_stopped st h
      | tick p t => exact update_grid_with_price_stopped st p t h
    exact ih (applyGridAction st a) hstep hrest

/-- C9 counterexample: Stopped is NOT terminal under the claimed action set,
because `pause_grid` unconditionally sets Paused (even from Stopped) and
`resume_grid` then reactivates: stop; pause; resume ends Active. -/
theorem stop_grid_not_terminal_counterexample :
    (applyGridActions (stop_grid stW)
      [GridAction.pause, GridAction.resume]).status = GridStatus.Active := by
  rfl

/-- C9 (amended): `stop_grid` sets Stopped and cancels every pending/active
order, and Stopped persists under any sequence of `resume_grid` and
`update_grid_with_price` calls (i.e. any pause-free action sequence); in
particular the strategy never regains status Active.  (With `pause_grid`
allowed the original claim fails: see the counterexample.) -/
theorem stop_grid_terminal_without_pause (st : GridStrategy)
    (acts : List GridAction) (hacts : ∀ a ∈ acts, a ≠ GridAction.pause) :
    (stop_grid st).status = .Stopped ∧
    (stop_grid st).active_orders = st.active_orders.map (fun o =>
      if o.status = .Pending ∨ o.status = .Active then
        { o with status := .Cancelled } else o) ∧
    (applyGridActions (stop_grid st) acts).status ≠ GridStatus.Active := by
  refine ⟨rfl, rfl, ?_⟩
  have := applyGridActions_no_pause_stopped acts (stop_grid st) rfl hacts
  rw [this]
  exact fun hcontra => GridStatus.noConfusion hcontra

/-- Witness for C9 (amended) on a concrete strategy and pause-free action
sequence. -/
theorem stop_grid_terminal_without_pause_witness :
    (∀ a ∈ [GridAction.resume, GridAction.tick (3/2) 5],
      a ≠ GridAction.pause) ∧
    (applyGridActions (stop_grid stW)
      [GridAction.resume, GridAction.tick (3/2) 5]).status ≠
        GridStatus.Active :=
  ⟨by decide,
    (stop_grid_terminal_without_pause stW
      [GridAction.resume, GridAction.tick (3/2) 5] (by decide)).2.2⟩


/-- C10: under a "high" whale impact with a price move above 5%, the band is
expanded by 20% of its width, but the new lower bound is clamped at zero
(`max (lower - expansion/2) 0`) while the upper bound gains the full
`expansion/2`; in particular the new lower bound is never negative. -/
theorem adjust_high_expansion_clamps_lower (st : GridStrategy)
    (price_impact current_price : ℚ)
    (h : |(current_price - st.last_price) / st.last_price| > 5/100) :
    (adjust_grid_for_whale_activity st "high" price_impact
        current_price).1.lower_price =
      max (st.lower_price - (st.upper_price - st.lower_price) * (2/10) / 2)
        0 ∧
    (adjust_grid_for_whale_activity st "high" price_impact
        current_price).1.upper_price =
      st.upper_price + (st.upper_price - st.lower_price) * (2/10) / 2 ∧
    0 ≤ (adjust_grid_for_whale_activity st "high" price_impact
        current_price).1.lower_price := by
  unfold adjust_grid_for_whale_activity
  rw [if_neg (by decide), if_pos rfl]
  dsimp only
  rw [if_pos h]
  exact ⟨rfl, rfl, le_max_right _ _⟩

/-- Witness for C10 on a band so close to zero that the clamp engages. -/
theorem adjust_high_expansion_clamps_lower_witness :
    (|((2 : ℚ) - stClampW.last_price) / stClampW.last_price| > 5/100) ∧
    (adjust_grid_for_whale_activity stClampW "high" 10 2).1.lower_price =
      max (stClampW.lower_price -
        (stClampW.upper_price - stClampW.lower_price) * (2/10) / 2) 0 :=
  ⟨by norm_num [stClampW], (adjust_high_expansion_clamps_lower stClampW 10 2 (by norm_num [stClampW])).1⟩


/-- Looking up the just-inserted key returns the inserted value. -/
lemma lookup_statsInsert_self (m : List (ℤ × DailyStats)) (k : ℤ)
    (v : DailyStats) : (statsInsert m k v).lookup k = some v := by
  induction m with
  | nil => simp [statsInsert, List.lookup]
  | cons kv rest ih =>
    obtain ⟨k', v'⟩ := kv
    by_cases h : k' = k
    · subst h
      simp [statsInsert, List.lookup]
    · have hb : (k == k') = false := beq_eq_false_iff_ne.mpr (Ne.symm h)
      simp [statsInsert, h, List.lookup, hb, ih]

/-- Inserting at one key leaves every other key's lookup unchanged. -/
lemma lookup_statsInsert_ne (m : List (ℤ × DailyStats)) (k u : ℤ)
    (v : DailyStats) (h : u ≠ k) :
    (statsInsert m k v).lookup u = m.lookup u := by
  have hb : (u == k) = false := beq_eq_false_iff_ne.mpr h
  induction m with
  | nil => simp [statsInsert, List.lookup, hb]
  | cons kv rest ih =>
    obtain ⟨k', v'⟩ := kv
    by_cases hk : k' = k
    · subst hk
      simp [statsInsert, List.lookup, hb]
    · simp [statsInsert, hk, List.lookup, ih]

/-- The daily-stats value the risk check compares against the daily-loss
limit equals `todayLoss`: the stored loss when the entry carries today's
date, zero after the lazy insert or the stale-date rollover. -/
lemma effectiveStats_loss (rs : RiskState) (user : ℤ) (today : String) :
    (if ((rs.daily_stats.lookup user).getD
          { date := today, total_loss_usd := 0, trade_count := 0 }).date ≠
        today then
      ({ date := today, total_loss_usd := 0, trade_count := 0 } : DailyStats)
    else
      (rs.daily_stats.lookup user).getD
        { date := today, total_loss_usd := 0, trade_count := 0
          }).total_loss_usd = todayLoss rs user today := by
  unfold todayLoss
  cases h : rs.daily_stats.lookup user with
  | none => simp
  | some s =>
    by_cases hd : s.date = today <;> simp [hd]


/-- C5: `check_trade_risk` succeeds iff none of the five limit conditions
holds, and when several hold it returns the error of the FIRST one in the
fixed order kill switch, blacklist, trade size, daily loss, open
positions: each error is returned exactly when its condition holds and
every earlier condition fails, so an enabled kill switch yields
`KillSwitchActive` regardless of all other state. -/
theorem check_trade_risk_ok_iff (user_id : ℤ) (profile : RiskProfile)
    (token : String) (amount : ℚ) (open_positions : ℤ) (today : String)
    (rs : RiskState) :
    ((check_trade_risk user_id profile token amount open_positions today
        rs).1 = .ok () ↔
      (¬ profile.kill_switch_enabled = true ∧
       ¬ (profile.blacklist_enabled = true ∧
            token ∈ rs.global_blacklist) ∧
       ¬ amount > profile.max_trade_size_usd ∧
       ¬ todayLoss rs user_id today ≥ profile.max_daily_loss_usd ∧
       ¬ open_positions ≥ profile.max_open_positions)) ∧
    (profile.kill_switch_enabled = true →
      (check_trade_risk user_id profile token amount open_positions today
        rs).1 = .error .KillSwitchActive) ∧
    (¬ profile.kill_switch_enabled = true →
      (profile.blacklist_enabled = true ∧ token ∈ rs.global_blacklist) →
      (check_trade_risk user_id profile token amount open_positions today
        rs).1 = .error (.TokenBlacklisted token)) ∧
    (¬ profile.kill_switch_enabled = true →
      ¬ (profile.blacklist_enabled = true ∧
          token ∈ rs.global_blacklist) →
      amount > profile.max_trade_size_usd →
      (check_trade_risk user_id profile token amount open_positions today
        rs).1 =
        .error (.MaxTradeSizeExceeded amount profile.max_trade_size_usd)) ∧
    (¬ profile.kill_switch_enabled = true →
      ¬ (profile.blacklist_enabled = true ∧
          token ∈ rs.global_blacklist) →
      ¬ amount > profile.max_trade_size_usd →
      todayLoss rs user_id today ≥ profile.max_daily_loss_usd →
      (check_trade_risk user_id profile token amount open_positions today
        rs).1 =
        .error (.MaxDailyLossExceeded (todayLoss rs user_id today)
          profile.max_daily_loss_usd)) ∧
    (¬ profile.kill_switch_enabled = true →
      ¬ (profile.blacklist_enabled = true ∧
          token ∈ rs.global_blacklist) →
      ¬ amount > profile.max_trade_size_usd →
      ¬ todayLoss rs user_id today ≥ profile.max_daily_loss_usd →
      open_positions ≥ profile.max_open_positions →
      (check_trade_risk user_id profile token amount open_positions today
        rs).1 =
        .error (.MaxOpenPositionsExceeded open_positions
          profile.max_open_positions)) := by
  unfold check_trade_risk
  dsimp only
  rw [effectiveStats_loss]
  split_ifs with h1 h2 h3 h4 h5 <;> simp_all

/-- Witness for C5: the default profile admits a small trade on a fresh
state, and with the kill switch on the same call fails with
`KillSwitchActive`. -/
theorem check_trade_risk_ok_iff_witness :
    (check_trade_risk 1 profileW "tok" 10 0 "2026-10-12" riskStateW).1 =
      Except.ok () ∧
    (check_trade_risk 1 profileKillW "tok" 10 0 "2026-10-12"
      riskStateW).1 = Except.error RiskError.KillSwitchActive :=
  ⟨(check_trade_risk_ok_iff 1 profileW "tok" 10 0 "2026-10-12"
      riskStateW).1.mpr
    ⟨by norm_num [profileW], by norm_num [profileW, riskStateW],
     by norm_num [profileW], by norm_num [profileW, todayLoss, riskStateW],
     by norm_num [profileW]⟩,
   (check_trade_risk_ok_iff 1 profileKillW "tok" 10 0 "2026-10-12"
      riskStateW).2.1 (by norm_num [profileKillW, profileW])⟩


/-- The check `check_trade_risk` never touches the blacklists. -/
lemma check_trade_risk_blacklists_unchanged (user_id : ℤ)
    (profile : RiskProfile) (token : String) (amount : ℚ)
    (open_positions : ℤ) (today : String) (rs : RiskState) :
    (check_trade_risk user_id profile token amount open_positions today
        rs).2.global_blacklist = rs.global_blacklist ∧
    (check_trade_risk user_id profile token amount open_positions today
        rs).2.dev_blacklist = rs.dev_blacklist := by
  unfold check_trade_risk
  dsimp only
  split_ifs <;> exact ⟨rfl, rfl⟩

/-- A daily-stats entry already carrying today's date passes through
`check_trade_risk` unchanged (the lazy insert re-stores the same value). -/
lemma check_trade_risk_preserves_today_entry (user_id : ℤ)
    (profile : RiskProfile) (token : String) (amount : ℚ)
    (open_positions : ℤ) (today : String) (rs : RiskState) (u : ℤ)
    (s : DailyStats) (hs : rs.daily_stats.lookup u = some s)
    (hdate : s.date = today) :
    (check_trade_risk user_id profile token amount open_positions today
        rs).2.daily_stats.lookup u = some s := by
  by_cases hu : u = user_id
  · subst hu
    unfold check_trade_risk
    dsimp only
    have hvred : (if s.date ≠ today then
        ({ date := today, total_loss_usd := 0, trade_count := 0 } :
          DailyStats)
      else s) = s := if_neg (by simp [hdate])
    rw [hs, Option.getD_some, hvred]
    split_ifs <;> first
      | exact hs
      | exact lookup_statsInsert_self _ _ _
  · unfold check_trade_risk
    dsimp only
    split_ifs <;> first
      | exact hs
      | (rw [lookup_statsInsert_ne _ _ _ _ hu]; exact hs)

/-- The recorder `record_trade_result` never decreases a stored daily loss and keeps the
entry's date. -/
lemma record_trade_result_monotone (u : ℤ) (pnl : ℚ) (rs : RiskState)
    (s : DailyStats) (hs : rs.daily_stats.lookup u = some s) :
    ∃ t, (record_trade_result u pnl rs).daily_stats.lookup u = some t ∧
      s.total_loss_usd ≤ t.total_loss_usd ∧ t.date = s.date := by
  unfold record_trade_result
  split_ifs with hneg
  · simp only [hs]
    exact ⟨_, lookup_statsInsert_self _ _ _,
      le_add_of_nonneg_right (abs_nonneg _), rfl⟩
  · exact ⟨s, hs, le_refl _, rfl⟩

/-- C6 counterexample: `check_trade_risk` CAN mutate the risk state even
when it returns Ok — the step-5 `entry(...).or_insert` writes a fresh
zeroed entry for a user with no daily stats yet. -/
theorem check_trade_risk_side_effect_counterexample :
    (check_trade_risk 1 profileW "tok" 10 0 "2026-10-12" riskStateW).1 =
      Except.ok () ∧
    (check_trade_risk 1 profileW "tok" 10 0 "2026-10-12" riskStateW).2 ≠
      riskStateW := by
  refine ⟨rfl, fun h => ?_⟩
  have : (check_trade_risk 1 profileW "tok" 10 0 "2026-10-12"
      riskStateW).2.daily_stats = riskStateW.daily_stats := by rw [h]
  exact List.noConfusion this

/-- C6 (amended): `check_trade_risk` mutates only the daily-stats map, and
only by lazily inserting a zeroed entry or rolling a stale-dated entry over
to zero: the blacklists are untouched and an entry already dated today is
preserved verbatim, so a user's recorded same-day loss is never changed by
a check; `record_trade_result` (the only writer that increases the loss)
keeps `total_loss_usd` monotonically non-decreasing within the day. -/
theorem risk_state_mutation_spec (user_id : ℤ) (profile : RiskProfile)
    (token : String) (amount : ℚ) (open_positions : ℤ) (today : String)
    (rs : RiskState) (u : ℤ) (pnl : ℚ) :
    ((check_trade_risk user_id profile token amount open_positions today
        rs).2.global_blacklist = rs.global_blacklist ∧
     (check_trade_risk user_id profile token amount open_positions today
        rs).2.dev_blacklist = rs.dev_blacklist) ∧
    (∀ s, rs.daily_stats.lookup u = some s → s.date = today →
      (check_trade_risk user_id profile token amount open_positions today
        rs).2.daily_stats.lookup u = some s) ∧
    (∀ s, rs.daily_stats.lookup u = some s →
      ∃ t, (record_trade_result u pnl rs).daily_stats.lookup u = some t ∧
        s.total_loss_usd ≤ t.total_loss_usd ∧ t.date = s.date) :=
  ⟨check_trade_risk_blacklists_unchanged user_id profile token amount
      open_positions today rs,
   fun s hs hdate => check_trade_risk_preserves_today_entry user_id profile
      token amount open_positions today rs u s hs hdate,
   fun s hs => record_trade_result_monotone u pnl rs s hs⟩

/-- Witness for C6 (amended) on a state where user 1 already has today's
entry with a $5 loss. -/
theorem risk_state_mutation_spec_witness :
    (check_trade_risk 1 profileW "tok" 10 0 "2026-10-12"
        rsW).2.daily_stats.lookup 1 = some statsW ∧
    (∃ t, (record_trade_result 1 (-10) rsW).daily_stats.lookup 1 = some t ∧
      statsW.total_loss_usd ≤ t.total_loss_usd ∧ t.date = statsW.date) :=
  ⟨(risk_state_mutation_spec 1 profileW "tok" 10 0 "2026-10-12" rsW 1
      (-10)).2.1 statsW rfl rfl,
   (risk_state_mutation_spec 1 profileW "tok" 10 0 "2026-10-12" rsW 1
      (-10)).2.2 statsW rfl⟩

/-- C7 counterexample: a losing trade for a user with NO daily-stats entry
records nothing — `get_mut` finds no entry and the loss is silently
dropped, so the user's effective daily loss stays 0 instead of growing by
`|pnl|`. -/
theorem record_trade_result_missing_entry_counterexample :
    record_trade_result 1 (-10) riskStateW = riskStateW ∧
    todayLoss (record_trade_result 1 (-10) riskStateW) 1 "2026-10-12" =
      0 := by
  constructor
  · rfl
  · rfl

/-- C7 (amended): `record_trade_result` adds `|pnl|` to the user's
`total_loss_usd` when `pnl < 0` AND the user already has a daily-stats
entry (other users' entries and the blacklists are untouched); when
`pnl ≥ 0` or the user has no entry, the state is returned unchanged. -/
theorem record_trade_result_spec (u : ℤ) (pnl : ℚ) (rs : RiskState) :
    (0 ≤ pnl → record_trade_result u pnl rs = rs) ∧
    (rs.daily_stats.lookup u = none → record_trade_result u pnl rs = rs) ∧
    (∀ s, pnl < 0 → rs.daily_stats.lookup u = some s →
      (record_trade_result u pnl rs).daily_stats.lookup u =
        some { s with total_loss_usd := s.total_loss_usd + |pnl| } ∧
      (∀ v, v ≠ u →
        (record_trade_result u pnl rs).daily_stats.lookup v =
          rs.daily_stats.lookup v) ∧
      (record_trade_result u pnl rs).global_blacklist =
        rs.global_blacklist ∧
      (record_trade_result u pnl rs).dev_blacklist = rs.dev_blacklist) := by
  refine ⟨?_, ?_, ?_⟩
  · intro h
    unfold record_trade_result
    rw [if_neg (not_lt.mpr h)]
  · intro h
    unfold record_trade_result
    split_ifs with hneg
    · simp only [h]
    · rfl
  · intro s hneg hs
    refine ⟨?_, ?_, ?_, ?_⟩
    · unfold record_trade_result
      rw [if_pos hneg]
      simp only [hs]
      exact lookup_statsInsert_self _ _ _
    · intro v hv
      unfold record_trade_result
      rw [if_pos hneg]
      simp only [hs]
      exact lookup_statsInsert_ne _ _ _ _ hv
    · unfold record_trade_result
      rw [if_pos hneg]
      simp [hs]
    · unfold record_trade_result
      rw [if_pos hneg]
      simp [hs]

/-- Witness for C7 (amended): the $5 entry grows to $15 on a $10 loss. -/
theorem record_trade_result_spec_witness :
    (-10 : ℚ) < 0 ∧
    (record_trade_result 1 (-10) rsW).daily_stats.lookup 1 =
      some { statsW with
        total_loss_usd := statsW.total_loss_usd + |(-10 : ℚ)| } :=
  ⟨by norm_num,
   ((record_trade_result_spec 1 (-10) rsW).2.2 statsW (by norm_num)
      rfl).1⟩


/-- On a one-order book `matchIdxs` selects index 0 exactly when the
predicate holds. -/
lemma matchIdxs_singleton (pred : GridOrder → Bool) (o : GridOrder) :
    matchIdxs pred [o] = if pred o then [0] else [] := by
  cases h : pred o <;> simp [matchIdxs, List.range_succ, h]

/-- On an empty book `matchIdxs` is empty. -/
lemma matchIdxs_nil (pred : GridOrder → Bool) : matchIdxs pred [] = [] :=
  rfl

/-- Indexing just past a prefix lands on the head of the suffix. -/
lemma getElem?_append_length (l₁ : List GridOrder) (x : GridOrder)
    (l₂ : List GridOrder) : (l₁ ++ x :: l₂)[l₁.length]? = some x := by
  rw [List.getElem?_append_right (le_refl _)]
  simp

/-- Erasing just past a prefix removes the head of the suffix. -/
lemma eraseIdx_append_length (l₁ : List GridOrder) (x : GridOrder)
    (l₂ : List GridOrder) :
    (l₁ ++ x :: l₂).eraseIdx l₁.length = l₁ ++ l₂ := by
  induction l₁ with
  | nil => rfl
  | cons a as ih => simp [List.eraseIdx_cons_succ, ih]

/-- Appending one order extends the matching-index list by the new index
exactly when the new order matches. -/
lemma matchIdxs_append_singleton (pred : GridOrder → Bool)
    (l : List GridOrder) (o : GridOrder) :
    matchIdxs pred (l ++ [o]) =
      matchIdxs pred l ++ (if pred o then [l.length] else []) := by
  unfold matchIdxs
  have hlen : (l ++ [o]).length = l.length + 1 := by simp
  rw [hlen, List.range_succ, List.filter_append]
  congr 1
  · apply List.filter_congr
    intro i hi
    rw [List.mem_range] at hi
    rw [List.getElem?_append_left hi]
  · have hx : (l ++ [o])[l.length]? = some o := by
      rw [List.getElem?_append_right (le_refl _)]
      simp
    cases hpo : pred o <;> simp [List.filter, hx, hpo]

/-- The buy-fill loop, replayed over the matching indices of a book prefix
`init` in descending order, archives exactly the matching Buy orders of
`init` (in reverse book order, filled at the tick price), leaves the
non-matching orders and the untouched suffix `extra` in place, appends the
spawned Sells at the end of the book, and bumps the trade counter once per
fill; the running profit and the spawned-order log grow accordingly. -/
lemma buyPass_spec (p : ℚ) (t : ℤ) (init : List GridOrder) :
    ∀ (st : GridStrategy) (extra ys : List GridOrder),
      st.active_orders = init ++ extra →
      ((matchIdxs (buyFillPred p) init).reverse.foldl (processBuyFill p t)
          (st, ys)).1.active_orders =
        init.filter (fun o => !buyFillPred p o) ++ extra ++
          (init.filter (buyFillPred p)).reverse.filterMap
            (spawnSell st.grid_spacing st.upper_price) ∧
      ((matchIdxs (buyFillPred p) init).reverse.foldl (processBuyFill p t)
          (st, ys)).1.completed_orders =
        st.completed_orders ++
          (init.filter (buyFillPred p)).reverse.map (fillOrder p t) ∧
      ((matchIdxs (buyFillPred p) init).reverse.foldl (processBuyFill p t)
          (st, ys)).1.total_trades =
        st.total_trades + (init.filter (buyFillPred p)).length ∧
      ((matchIdxs (buyFillPred p) init).reverse.foldl (processBuyFill p t)
          (st, ys)).1.total_profit = st.total_profit ∧
      ((matchIdxs (buyFillPred p) init).reverse.foldl (processBuyFill p t)
          (st, ys)).2 =
        ys ++ (init.filter (buyFillPred p)).reverse.filterMap
          (spawnSell st.grid_spacing st.upper_price) := by
  induction init using List.reverseRecOn with
  | nil =>
    intro st extra ys hact
    simp [matchIdxs_nil, hact]
  | append_singleton init' o ih =>
    intro st extra ys hact
    rw [matchIdxs_append_singleton]
    have hact' : st.active_orders = init' ++ (o :: extra) := by
      rw [hact, List.append_assoc]
      rfl
    cases hpo : buyFillPred p o with
    | false =>
      rw [if_neg (by simp [hpo])]
      rw [List.append_nil]
      obtain ⟨ha, hc, htr, hpf, hys⟩ := ih st (o :: extra) ys hact'
      refine ⟨?_, ?_, ?_, hpf, ?_⟩
      · rw [ha]
        simp [List.filter_append, List.filter_cons, hpo, List.append_assoc]
      · rw [hc]
        simp [List.filter_append, List.filter_cons, hpo]
      · rw [htr]
        simp [List.filter_append, List.filter_cons, hpo]
      · rw [hys]
        simp [List.filter_append, List.filter_cons, hpo]
    | true =>
      rw [if_pos (by simp [hpo])]
      rw [List.reverse_append, List.reverse_singleton, List.singleton_append,
        List.foldl_cons]
      have hget : st.active_orders[init'.length]? = some o := by
        rw [hact']
        exact getElem?_append_length init' o extra
      have herase : st.active_orders.eraseIdx init'.length =
          init' ++ extra := by
        rw [hact']
        exact eraseIdx_append_length init' o extra
      unfold processBuyFill
      dsimp only
      rw [hget]
      dsimp only
      rw [herase]
      split_ifs with hguard
      · -- sell spawned at o.price + st.grid_spacing
        have hspawn : spawnSell st.grid_spacing st.upper_price o =
            some { order_id := ""
                   order_type := .Sell
                   price := o.price + st.grid_spacing
                   amount := o.amount
                   status := .Pending
                   filled_at := none
                   filled_price := none
                   profit := none } := by
          unfold spawnSell
          rw [if_pos hguard]
        obtain ⟨ha, hc, htr, hpf, hys⟩ := ih
          ({ st with
              active_orders := (init' ++ extra) ++
                [{ order_id := ""
                   order_type := .Sell
                   price := o.price + st.grid_spacing
                   amount := o.amount
                   status := .Pending
                   filled_at := none
                   filled_price := none
                   profit := none }]
              completed_orders := st.completed_orders ++
                [{ o with
                    status := .Filled
                    filled_at := some t
                    filled_price := some p }]
              total_trades := st.total_trades + 1 })
          (extra ++
            [{ order_id := ""
               order_type := .Sell
               price := o.price + st.grid_spacing
               amount := o.amount
               status := .Pending
               filled_at := none
               filled_price := none
               profit := none }])
          (ys ++
            [{ order_id := ""
               order_type := .Sell
               price := o.price + st.grid_spacing
               amount := o.amount
               status := .Pending
               filled_at := none
               filled_price := none
               profit := none }])
          (by dsimp only; rw [List.append_assoc])
        refine ⟨ha.trans ?_, hc.trans ?_, htr.trans ?_, hpf, hys.trans ?_⟩
        · simp [List.filter_append, List.filter_cons, hpo, hspawn,
            List.reverse_append, List.filterMap_append, List.filterMap_cons,
            List.append_assoc]
        · simp [List.filter_append, List.filter_cons, hpo, fillOrder,
            List.reverse_append, List.append_assoc]
        · simp [List.filter_append, List.filter_cons, hpo]
          omega
        · simp [List.filter_append, List.filter_cons, hpo, hspawn,
            List.reverse_append, List.filterMap_append, List.filterMap_cons,
            List.append_assoc]
      · -- no spawn: o.price + st.grid_spacing > st.upper_price
        have hspawn : spawnSell st.grid_spacing st.upper_price o = none := by
          unfold spawnSell
          rw [if_neg hguard]
        obtain ⟨ha, hc, htr, hpf, hys⟩ := ih
          ({ st with
              active_orders := init' ++ extra
              completed_orders := st.completed_orders ++
                [{ o with
                    status := .Filled
                    filled_at := some t
                    filled_price := some p }]
              total_trades := st.total_trades + 1 })
          extra ys (by dsimp only)
        refine ⟨ha.trans ?_, hc.trans ?_, htr.trans ?_, hpf, hys.trans ?_⟩
        · simp [List.filter_append, List.filter_cons, hpo, hspawn,
            List.reverse_append, List.filterMap_append, List.filterMap_cons,
            List.append_assoc]
        · simp [List.filter_append, List.filter_cons, hpo, fillOrder,
            List.reverse_append, List.append_assoc]
        · simp [List.filter_append, List.filter_cons, hpo]
          omega
        · simp [List.filter_append, List.filter_cons, hpo, hspawn,
            List.reverse_append, List.filterMap_append, List.filterMap_cons,
            List.append_assoc]

/-- The sell-fill loop, replayed over the matching indices of a book prefix
`init` in descending order, archives exactly the matching Sell orders of
`init` in reverse book order — each one through `sellStep`, i.e. filled at
the tick price with profit taken against the first cheaper completed Buy in
the archive AS IT STANDS at that moment — leaves non-matching orders and
the suffix `extra` in place, appends the spawned Buys at the end, and bumps
the trade counter once per fill. -/
lemma sellPass_spec (p : ℚ) (t : ℤ) (init : List GridOrder) :
    ∀ (st : GridStrategy) (extra ys : List GridOrder),
      st.active_orders = init ++ extra →
      ((matchIdxs (sellFillPred p) init).reverse.foldl (processSellFill p t)
          (st, ys)).1.active_orders =
        init.filter (fun o => !sellFillPred p o) ++ extra ++
          (init.filter (sellFillPred p)).reverse.filterMap
            (spawnBuy st.grid_spacing st.lower_price) ∧
      ((matchIdxs (sellFillPred p) init).reverse.foldl (processSellFill p t)
          (st, ys)).1.completed_orders =
        ((init.filter (sellFillPred p)).reverse.foldl (sellStep p t)
          (st.completed_orders, st.total_profit)).1 ∧
      ((matchIdxs (sellFillPred p) init).reverse.foldl (processSellFill p t)
          (st, ys)).1.total_profit =
        ((init.filter (sellFillPred p)).reverse.foldl (sellStep p t)
          (st.completed_orders, st.total_profit)).2 ∧
      ((matchIdxs (sellFillPred p) init).reverse.foldl (processSellFill p t)
          (st, ys)).1.total_trades =
        st.total_trades + (init.filter (sellFillPred p)).length ∧
      ((matchIdxs (sellFillPred p) init).reverse.foldl (processSellFill p t)
          (st, ys)).2 =
        ys ++ (init.filter (sellFillPred p)).reverse.filterMap
          (spawnBuy st.grid_spacing st.lower_price) := by
  induction init using List.reverseRecOn with
  | nil =>
    intro st extra ys hact
    simp [matchIdxs_nil, hact]
  | append_singleton init' o ih =>
    intro st extra ys hact
    rw [matchIdxs_append_singleton]
    have hact' : st.active_orders = init' ++ (o :: extra) := by
      rw [hact, List.append_assoc]
      rfl
    cases hpo : sellFillPred p o with
    | false =>
      rw [if_neg (by simp [hpo])]
      rw [List.append_nil]
      obtain ⟨ha, hc, hpf, htr, hys⟩ := ih st (o :: extra) ys hact'
      refine ⟨ha.trans ?_, hc.trans ?_, hpf.trans ?_, htr.trans ?_,
        hys.trans ?_⟩
      · simp [List.filter_append, List.filter_cons, hpo, List.append_assoc]
      · simp [List.filter_append, List.filter_cons, hpo]
      · simp [List.filter_append, List.filter_cons, hpo]
      · simp [List.filter_append, List.filter_cons, hpo]
      · simp [List.filter_append, List.filter_cons, hpo]
    | true =>
      rw [if_pos (by simp [hpo])]
      rw [List.reverse_append, List.reverse_singleton, List.singleton_append,
        List.foldl_cons]
      have hget : st.active_orders[init'.length]? = some o := by
        rw [hact']
        exact getElem?_append_length init' o extra
      have herase : st.active_orders.eraseIdx init'.length =
          init' ++ extra := by
        rw [hact']
        exact eraseIdx_append_length init' o extra
      unfold processSellFill
      dsimp only
      rw [hget]
      dsimp only
      rw [herase]
      cases hfind : st.completed_orders.find? (fun b =>
          b.order_type = .Buy ∧ b.price < o.price) with
      | some b =>
        simp only [Bool.decide_and] at hfind
        dsimp only
        split_ifs with hguard
        · have hspawnB : spawnBuy st.grid_spacing st.lower_price o =
              some { order_id := ""
                     order_type := .Buy
                     price := o.price - st.grid_spacing
                     amount := o.amount
                     status := .Pending
                     filled_at := none
                     filled_price := none
                     profit := none } := by
            unfold spawnBuy
            rw [if_pos hguard]
          obtain ⟨ha, hc, hpf, htr, hys⟩ := ih
            ({ st with
                active_orders := (init' ++ extra) ++
                  [{ order_id := ""
                     order_type := .Buy
                     price := o.price - st.grid_spacing
                     amount := o.amount
                     status := .Pending
                     filled_at := none
                     filled_price := none
                     profit := none }]
                completed_orders := st.completed_orders ++
                  [{ o with
                      status := .Filled
                      filled_at := some t
                      filled_price := some p
                      profit := some ((o.price - b.price) / b.price * 100) }]
                total_profit := st.total_profit +
                  o.amount * (o.price - b.price)
                total_trades := st.total_trades + 1 })
            (extra ++
              [{ order_id := ""
                 order_type := .Buy
                 price := o.price - st.grid_spacing
                 amount := o.amount
                 status := .Pending
                 filled_at := none
                 filled_price := none
                 profit := none }])
            (ys ++
              [{ order_id := ""
                 order_type := .Buy
                 price := o.price - st.grid_spacing
                 amount := o.amount
                 status := .Pending
                 filled_at := none
                 filled_price := none
                 profit := none }])
            (by dsimp only; rw [List.append_assoc])
          refine ⟨ha.trans ?_, hc.trans ?_, hpf.trans ?_, htr.trans ?_,
            hys.trans ?_⟩
          · dsimp only
            simp [List.filter_append, List.filter_cons, hpo, hspawnB,
              List.reverse_append, List.filterMap_append,
              List.filterMap_cons, List.append_assoc]
          · dsimp only
            simp [List.filter_append, List.filter_cons, hpo, sellStep,
              hfind, fillOrder, List.reverse_append, List.append_assoc]
          · dsimp only
            simp [List.filter_append, List.filter_cons, hpo, sellStep,
              hfind, fillOrder, List.reverse_append]
          · simp [List.filter_append, List.filter_cons, hpo]
            omega
          · dsimp only
            simp [List.filter_append, List.filter_cons, hpo, hspawnB,
              List.reverse_append, List.filterMap_append,
              List.filterMap_cons, List.append_assoc]
        · have hspawnB : spawnBuy st.grid_spacing st.lower_price o =
              none := by
            unfold spawnBuy
            rw [if_neg hguard]
          obtain ⟨ha, hc, hpf, htr, hys⟩ := ih
            ({ st with
                active_orders := init' ++ extra
                completed_orders := st.completed_orders ++
                  [{ o with
                      status := .Filled
                      filled_at := some t
                      filled_price := some p
                      profit := some ((o.price - b.price) / b.price * 100) }]
                total_profit := st.total_profit +
                  o.amount * (o.price - b.price)
                total_trades := st.total_trades + 1 })
            extra ys (by dsimp only)
          refine ⟨ha.trans ?_, hc.trans ?_, hpf.trans ?_, htr.trans ?_,
            hys.trans ?_⟩
          · dsimp only
            simp [List.filter_append, List.filter_cons, hpo, hspawnB,
              List.reverse_append, List.filterMap_append,
              List.filterMap_cons, List.append_assoc]
          · dsimp only
            simp [List.filter_append, List.filter_cons, hpo, sellStep,
              hfind, fillOrder, List.reverse_append, List.append_assoc]
          · dsimp only
            simp [List.filter_append, List.filter_cons, hpo, sellStep,
              hfind, fillOrder, List.reverse_append]
          · simp [List.filter_append, List.filter_cons, hpo]
            omega
          · dsimp only
            simp [List.filter_append, List.filter_cons, hpo, hspawnB,
              List.reverse_append, List.filterMap_append,
              List.filterMap_cons, List.append_assoc]
      | none =>
        simp only [Bool.decide_and] at hfind
        dsimp only
        split_ifs with hguard
        · have hspawnB : spawnBuy st.grid_spacing st.lower_price o =
              some { order_id := ""
                     order_type := .Buy
                     price := o.price - st.grid_spacing
                     amount := o.amount
                     status := .Pending
                     filled_at := none
                     filled_price := none
                     profit := none } := by
            unfold spawnBuy
            rw [if_pos hguard]
          obtain ⟨ha, hc, hpf, htr, hys⟩ := ih
            ({ st with
                active_orders := (init' ++ extra) ++
                  [{ order_id := ""
                     order_type := .Buy
                     price := o.price - st.grid_spacing
                     amount := o.amount
                     status := .Pending
                     filled_at := none
                     filled_price := none
                     profit := none }]
                completed_orders := st.completed_orders ++
                  [{ o with
                      status := .Filled
                      filled_at := some t
                      filled_price := some p }]
                total_trades := st.total_trades + 1 })
            (extra ++
              [{ order_id := ""
                 order_type := .Buy
                 price := o.price - st.grid_spacing
                 amount := o.amount
                 status := .Pending
                 filled_at := none
                 filled_price := none
                 profit := none }])
            (ys ++
              [{ order_id := ""
                 order_type := .Buy
                 price := o.price - st.grid_spacing
                 amount := o.amount
                 status := .Pending
                 filled_at := none
                 filled_price := none
                 profit := none }])
            (by dsimp only; rw [List.append_assoc])
          refine ⟨ha.trans ?_, hc.trans ?_, hpf.trans ?_, htr.trans ?_,
            hys.trans ?_⟩
          · dsimp only
            simp [List.filter_append, List.filter_cons, hpo, hspawnB,
              List.reverse_append, List.filterMap_append,
              List.filterMap_cons, List.append_assoc]
          · dsimp only
            simp [List.filter_append, List.filter_cons, hpo, sellStep,
              hfind, fillOrder, List.reverse_append, List.append_assoc]
          · dsimp only
            simp [List.filter_append, List.filter_cons, hpo, sellStep,
              hfind, fillOrder, List.reverse_append]
          · simp [List.filter_append, List.filter_cons, hpo]
            omega
          · dsimp only
            simp [List.filter_append, List.filter_cons, hpo, hspawnB,
              List.reverse_append, List.filterMap_append,
              List.filterMap_cons, List.append_assoc]
        · have hspawnB : spawnBuy st.grid_spacing st.lower_price o =
              none := by
            unfold spawnBuy
            rw [if_neg hguard]
          obtain ⟨ha, hc, hpf, htr, hys⟩ := ih
            ({ st with
                active_orders := init' ++ extra
                completed_orders := st.completed_orders ++
                  [{ o with
                      status := .Filled
                      filled_at := some t
                      filled_price := some p }]
                total_trades := st.total_trades + 1 })
            extra ys (by dsimp only)
          refine ⟨ha.trans ?_, hc.trans ?_, hpf.trans ?_, htr.trans ?_,
            hys.trans ?_⟩
          · dsimp only
            simp [List.filter_append, List.filter_cons, hpo, hspawnB,
              List.reverse_append, List.filterMap_append,
              List.filterMap_cons, List.append_assoc]
          · dsimp only
            simp [List.filter_append, List.filter_cons, hpo, sellStep,
              hfind, fillOrder, List.reverse_append, List.append_assoc]
          · dsimp only
            simp [List.filter_append, List.filter_cons, hpo, sellStep,
              hfind, fillOrder, List.reverse_append]
          · simp [List.filter_append, List.filter_cons, hpo]
            omega
          · dsimp only
            simp [List.filter_append, List.filter_cons, hpo, hspawnB,
              List.reverse_append, List.filterMap_append,
              List.filterMap_cons, List.append_assoc]

/-- Each `sellStep` appends exactly one archived order, so the fold extends
the archive by one order per filled Sell. -/
lemma foldl_sellStep_shape (p : ℚ) (t : ℤ) (xs : List GridOrder) :
    ∀ (c : List GridOrder) (q : ℚ),
      ∃ d : List GridOrder,
        (xs.foldl (sellStep p t) (c, q)).1 = c ++ d ∧
        d.length = xs.length := by
  induction xs with
  | nil =>
    intro c q
    exact ⟨[], by simp, rfl⟩
  | cons x xs ih =>
    intro c q
    obtain ⟨e, q', hstep⟩ : ∃ e q',
        sellStep p t (c, q) x = (c ++ [e], q') := by
      unfold sellStep
      cases c.find? (fun b => b.order_type = .Buy ∧ b.price < x.price) with
      | some b => exact ⟨_, _, rfl⟩
      | none => exact ⟨_, _, rfl⟩
    rw [List.foldl_cons, hstep]
    obtain ⟨d, hd, hlen⟩ := ih (c ++ [e]) q'
    refine ⟨e :: d, ?_, by simp [hlen]⟩
    rw [hd, List.append_assoc]
    rfl

/-- A tick inside the band decomposes into the two passes: the buy pass
fills exactly `buyFills` (archived in reverse book order at the tick price)
and spawns `spawnSell` orders; the sell pass then fills exactly `sellFills`
through `sellStep` (profit against the first cheaper archived Buy at fill
time) and spawns `spawnBuy` orders; the trade counter grows once per fill
on either side. -/
lemma update_fills_spec (st : GridStrategy) (p : ℚ) (t : ℤ)
    (hlo : st.lower_price ≤ p) (hhi : p ≤ st.upper_price) :
    (update_grid_with_price st p t).1.completed_orders =
      ((sellFills p st).reverse.foldl (sellStep p t)
        (st.completed_orders ++ (buyFills p st).reverse.map (fillOrder p t),
          st.total_profit)).1 ∧
    (update_grid_with_price st p t).1.total_profit =
      ((sellFills p st).reverse.foldl (sellStep p t)
        (st.completed_orders ++ (buyFills p st).reverse.map (fillOrder p t),
          st.total_profit)).2 ∧
    (update_grid_with_price st p t).1.total_trades =
      st.total_trades + (buyFills p st).length + (sellFills p st).length ∧
    (update_grid_with_price st p t).2 =
      (buyFills p st).reverse.filterMap
        (spawnSell st.grid_spacing st.upper_price) ++
        (sellFills p st).reverse.filterMap
          (spawnBuy st.grid_spacing st.lower_price) ∧
    (update_grid_with_price st p t).1.active_orders =
      (postBuyBook p st).filter (fun o => !sellFillPred p o) ++
        (sellFills p st).reverse.filterMap
          (spawnBuy st.grid_spacing st.lower_price) := by
  have hin : ¬(p < st.lower_price ∨ p > st.upper_price) := by
    push_neg
    exact ⟨hlo, hhi⟩
  unfold update_grid_with_price
  dsimp only
  rw [if_neg hin]
  split_ifs with hp
  · obtain ⟨ba, bc, btr, bpf, bys⟩ := buyPass_spec p t st.active_orders
      { st with last_price := p, status := GridStatus.Active } [] []
      ((List.append_nil _).symm)
    have hpres := foldl_processBuyFill_preserves p t
      (matchIdxs (buyFillPred p) st.active_orders).reverse
      ({ st with last_price := p, status := GridStatus.Active }, [])
    obtain ⟨sa, sc, spf, strr, sys⟩ := sellPass_spec p t
      ((matchIdxs (buyFillPred p) st.active_orders).reverse.foldl
        (processBuyFill p t)
        ({ st with last_price := p, status := GridStatus.Active },
          [])).1.active_orders
      ((matchIdxs (buyFillPred p) st.active_orders).reverse.foldl
        (processBuyFill p t)
        ({ st with last_price := p, status := GridStatus.Active }, [])).1
      []
      ((matchIdxs (buyFillPred p) st.active_orders).reverse.foldl
        (processBuyFill p t)
        ({ st with last_price := p, status := GridStatus.Active }, [])).2
      ((List.append_nil _).symm)
    refine ⟨sc.trans ?_, spf.trans ?_, strr.trans ?_, sys.trans ?_,
      sa.trans ?_⟩
    · rw [ba, bc, bpf]
      simp [sellFills, postBuyBook, buyFills]
    · rw [ba, bc, bpf]
      simp [sellFills, postBuyBook, buyFills]
    · rw [ba, btr]
      simp [sellFills, postBuyBook, buyFills]
    · rw [ba, bys, hpres.2.2.2, hpres.2.1]
      simp [sellFills, postBuyBook, buyFills]
    · rw [ba, hpres.2.2.2, hpres.2.1]
      simp [sellFills, postBuyBook, buyFills]
  · obtain ⟨ba, bc, btr, bpf, bys⟩ := buyPass_spec p t st.active_orders
      { st with last_price := p } [] [] ((List.append_nil _).symm)
    have hpres := foldl_processBuyFill_preserves p t
      (matchIdxs (buyFillPred p) st.active_orders).reverse
      ({ st with last_price := p }, [])
    obtain ⟨sa, sc, spf, strr, sys⟩ := sellPass_spec p t
      ((matchIdxs (buyFillPred p) st.active_orders).reverse.foldl
        (processBuyFill p t)
        ({ st with last_price := p }, [])).1.active_orders
      ((matchIdxs (buyFillPred p) st.active_orders).reverse.foldl
        (processBuyFill p t) ({ st with last_price := p }, [])).1
      []
      ((matchIdxs (buyFillPred p) st.active_orders).reverse.foldl
        (processBuyFill p t) ({ st with last_price := p }, [])).2
      ((List.append_nil _).symm)
    refine ⟨sc.trans ?_, spf.trans ?_, strr.trans ?_, sys.trans ?_,
      sa.trans ?_⟩
    · rw [ba, bc, bpf]
      simp [sellFills, postBuyBook, buyFills]
    · rw [ba, bc, bpf]
      simp [sellFills, postBuyBook, buyFills]
    · rw [ba, btr]
      simp [sellFills, postBuyBook, buyFills]
    · rw [ba, bys, hpres.2.2.2, hpres.2.1]
      simp [sellFills, postBuyBook, buyFills]
    · rw [ba, hpres.2.2.2, hpres.2.1]
      simp [sellFills, postBuyBook, buyFills]

/-- A tick in range against a book holding exactly one fillable Sell order
reduces to a single `processSellFill` step (the buy pass matches nothing,
and a Buy spawned by the sell fill is only scanned by the earlier buy
pass). -/
lemma update_single_sell_eq (st : GridStrategy) (o : GridOrder) (p : ℚ)
    (t : ℤ) (hactive : st.active_orders = [o])
    (htype : o.order_type = .Sell)
    (hstatus : o.status = .Pending ∨ o.status = .Active)
    (hge : o.price ≤ p) (hlo : st.lower_price ≤ p)
    (hhi : p ≤ st.upper_price) :
    update_grid_with_price st p t =
      processSellFill p t
        ({ st with
            last_price := p
            status := if st.status = .Paused then .Active else st.status },
          []) 0 := by
  have hnotout : ¬(p < st.lower_price ∨ p > st.upper_price) := by
    push_neg
    exact ⟨hlo, hhi⟩
  have hbuyPred : buyFillPred p o = false := by
    simp [buyFillPred, htype]
  have hsellPred : sellFillPred p o = true := by
    rcases hstatus with h | h <;> simp [sellFillPred, htype, h, hge]
  unfold update_grid_with_price
  dsimp only
  rw [if_neg hnotout]
  split_ifs with hp
  · dsimp only
    rw [hactive, matchIdxs_singleton, hbuyPred]
    simp only [Bool.false_eq_true, if_false, List.reverse_nil,
      List.foldl_nil]
    rw [matchIdxs_singleton, hsellPred]
    simp only [if_true, List.reverse_singleton, List.foldl_cons,
      List.foldl_nil]
  · dsimp only
    rw [hactive, matchIdxs_singleton, hbuyPred]
    simp only [Bool.false_eq_true, if_false, List.reverse_nil,
      List.foldl_nil]
    rw [matchIdxs_singleton, hsellPred]
    simp only [if_true, List.reverse_singleton, List.foldl_cons,
      List.foldl_nil]


/-- A tick in range against a book holding exactly one fillable Buy order
reduces to a single `processBuyFill` step: the Sell order it may spawn sits
one positive grid step above the Buy's limit price, strictly above the tick
price, so the subsequent sell pass matches nothing. -/
lemma update_single_buy_eq (st : GridStrategy) (o : GridOrder) (p : ℚ)
    (t : ℤ) (hactive : st.active_orders = [o])
    (htype : o.order_type = .Buy)
    (hstatus : o.status = .Pending ∨ o.status = .Active)
    (hle : p ≤ o.price) (hlo : st.lower_price ≤ p)
    (hhi : p ≤ st.upper_price) (hsp : 0 < st.grid_spacing) :
    update_grid_with_price st p t =
      processBuyFill p t
        ({ st with
            last_price := p
            status := if st.status = .Paused then .Active else st.status },
          []) 0 := by
  have hnotout : ¬(p < st.lower_price ∨ p > st.upper_price) := by
    push_neg
    exact ⟨hlo, hhi⟩
  have hbuyPred : buyFillPred p o = true := by
    rcases hstatus with h | h <;> simp [buyFillPred, htype, h, hle]
  have hnofill : ¬ (o.price + st.grid_spacing ≤ p) :=
    not_le.mpr (lt_of_le_of_lt hle (lt_add_of_pos_right _ hsp))
  have hsellPred : sellFillPred p
      ({ order_id := "", order_type := .Sell,
         price := o.price + st.grid_spacing, amount := o.amount,
         status := .Pending, filled_at := none, filled_price := none,
         profit := none } : GridOrder) = false := by
    simp [sellFillPred, hnofill]
  unfold update_grid_with_price
  dsimp only
  rw [if_neg hnotout]
  split_ifs with hp
  · dsimp only
    rw [hactive, matchIdxs_singleton, hbuyPred]
    simp only [if_true, List.reverse_singleton, List.foldl_cons,
      List.foldl_nil]
    unfold processBuyFill
    dsimp only
    simp only [List.getElem?_cons_zero]
    simp only [List.eraseIdx_cons_zero]
    split_ifs with hspawn
    · simp only [List.nil_append]
      rw [matchIdxs_singleton, hsellPred]
      simp only [Bool.false_eq_true, if_false, List.reverse_nil,
        List.foldl_nil]
    · simp only [matchIdxs_nil, List.reverse_nil, List.foldl_nil]
  · dsimp only
    rw [hactive, matchIdxs_singleton, hbuyPred]
    simp only [if_true, List.reverse_singleton, List.foldl_cons,
      List.foldl_nil]
    unfold processBuyFill
    dsimp only
    simp only [List.getElem?_cons_zero]
    simp only [List.eraseIdx_cons_zero]
    split_ifs with hspawn
    · simp only [List.nil_append]
      rw [matchIdxs_singleton, hsellPred]
      simp only [Bool.false_eq_true, if_false, List.reverse_nil,
        List.foldl_nil]
    · simp only [matchIdxs_nil, List.reverse_nil, List.foldl_nil]


/-- C3 counterexample: a Buy order with limit 3/2 is filled by a tick at
6/5, and the spawned Sell sits at 2 = order.price + spacing, NOT at
17/10 = fill_price + spacing as the claim states. -/
theorem buy_fill_spawn_price_counterexample :
    (update_grid_with_price stBuyW (6/5) 7).2.map GridOrder.price = [2] ∧
    (6/5 : ℚ) + stBuyW.grid_spacing = 17/10 ∧ ((2 : ℚ) ≠ 17/10) := by
  have h := update_single_buy_eq stBuyW oBuyW (6/5) 7 rfl rfl (Or.inl rfl)
    (by norm_num [oBuyW]) (by norm_num [stBuyW]) (by norm_num [stBuyW])
    (by norm_num [stBuyW])
  refine ⟨?_, by norm_num [stBuyW], by norm_num⟩
  rw [h]
  unfold processBuyFill
  norm_num [stBuyW, oBuyW]

/-- C3 (amended): on any in-range tick, every pending/active Buy order
whose limit price is at or above the tick price is filled at the tick
price and archived in `completed_orders` (in reverse book order, ahead of
the sell-pass fills), `total_trades` grows once per fill on either side,
and for each filled Buy a pending Sell of the same amount is spawned one
`grid_spacing` above the order's LIMIT price — not above the fill price —
if and only if `order.price + grid_spacing ≤ upper_price` (the `spawnSell`
guard). -/
theorem buy_fill_spec (st : GridStrategy) (p : ℚ) (t : ℤ)
    (hlo : st.lower_price ≤ p) (hhi : p ≤ st.upper_price) :
    ∃ sellArchive : List GridOrder,
      (update_grid_with_price st p t).1.completed_orders =
        st.completed_orders ++
          (buyFills p st).reverse.map (fillOrder p t) ++ sellArchive ∧
      sellArchive.length = (sellFills p st).length ∧
      (update_grid_with_price st p t).1.total_trades =
        st.total_trades + (buyFills p st).length +
          (sellFills p st).length ∧
      (update_grid_with_price st p t).2 =
        (buyFills p st).reverse.filterMap
          (spawnSell st.grid_spacing st.upper_price) ++
          (sellFills p st).reverse.filterMap
            (spawnBuy st.grid_spacing st.lower_price) := by
  obtain ⟨hc, _, htr, hys, _⟩ := update_fills_spec st p t hlo hhi
  obtain ⟨d, hd, hlen⟩ := foldl_sellStep_shape p t (sellFills p st).reverse
    (st.completed_orders ++ (buyFills p st).reverse.map (fillOrder p t))
    st.total_profit
  refine ⟨d, ?_, by rw [hlen, List.length_reverse], htr, hys⟩
  rw [hc, hd, List.append_assoc]

/-- Witness for C3 (amended) on the one-Buy book: the 6/5 tick fills the
3/2 Buy and the spawned Sell sits at 3/2 + 1/2 = 2. -/
theorem buy_fill_spec_witness :
    (stBuyW.lower_price ≤ 6/5 ∧ (6 : ℚ)/5 ≤ stBuyW.upper_price) ∧
    (∃ sellArchive : List GridOrder,
      (update_grid_with_price stBuyW (6/5) 7).1.completed_orders =
        stBuyW.completed_orders ++
          (buyFills (6/5) stBuyW).reverse.map (fillOrder (6/5) 7) ++
          sellArchive ∧
      sellArchive.length = (sellFills (6/5) stBuyW).length ∧
      (update_grid_with_price stBuyW (6/5) 7).1.total_trades =
        stBuyW.total_trades + (buyFills (6/5) stBuyW).length +
          (sellFills (6/5) stBuyW).length ∧
      (update_grid_with_price stBuyW (6/5) 7).2 =
        (buyFills (6/5) stBuyW).reverse.filterMap
          (spawnSell stBuyW.grid_spacing stBuyW.upper_price) ++
          (sellFills (6/5) stBuyW).reverse.filterMap
            (spawnBuy stBuyW.grid_spacing stBuyW.lower_price)) :=
  ⟨⟨by norm_num [stBuyW], by norm_num [stBuyW]⟩,
   buy_fill_spec stBuyW (6/5) 7 (by norm_num [stBuyW])
     (by norm_num [stBuyW])⟩

/-- C2 counterexample: the sell at 3 fills against the FIRST completed Buy
with a lower price (price 1, the older fill), yielding profit_pct 200 and
total_profit 20, not the values 50 and 10 the most-recent matching Buy
(price 2) would give. -/
theorem sell_fill_profit_counterexample :
    ((update_grid_with_price stSellW 3 9).1.completed_orders.map
        GridOrder.profit = [none, none, some 200] ∧
      (200 : ℚ) ≠ (3 - 2) / 2 * 100) ∧
    ((update_grid_with_price stSellW 3 9).1.total_profit = 20 ∧
      (20 : ℚ) ≠ 10 * (3 - 2)) := by
  have h := update_single_sell_eq stSellW oSellW 3 9 rfl rfl (Or.inl rfl)
    (by norm_num [oSellW]) (by norm_num [stSellW]) (by norm_num [stSellW])
  refine ⟨⟨?_, by norm_num⟩, ?_, by norm_num⟩ <;>
    rw [h] <;>
    unfold processSellFill <;>
    norm_num [stSellW, oSellW, bFill1, bFill2, List.find?]

/-- C2 (amended): on any in-range tick, the archive and the running profit
after the tick are obtained by folding `sellStep` over the filled Sells (in
reverse book order) on top of the buy-pass archive: each filled Sell's
profit is computed against the FIRST (oldest, via `Iterator::find`) Buy in
the archive as it stands at that moment whose price is below the sell's
limit price — `profit_pct = (sell - buy)/buy * 100` stored on the order,
`amount * (sell - buy)` added to `total_profit` — and when no such Buy
exists the profit field is left untouched and the total unchanged. -/
theorem sell_fill_spec (st : GridStrategy) (p : ℚ) (t : ℤ)
    (hlo : st.lower_price ≤ p) (hhi : p ≤ st.upper_price) :
    (update_grid_with_price st p t).1.completed_orders =
      ((sellFills p st).reverse.foldl (sellStep p t)
        (st.completed_orders ++ (buyFills p st).reverse.map (fillOrder p t),
          st.total_profit)).1 ∧
    (update_grid_with_price st p t).1.total_profit =
      ((sellFills p st).reverse.foldl (sellStep p t)
        (st.completed_orders ++ (buyFills p st).reverse.map (fillOrder p t),
          st.total_profit)).2 :=
  ⟨(update_fills_spec st p t hlo hhi).1,
   (update_fills_spec st p t hlo hhi).2.1⟩

/-- Witness for C2 (amended) on the two-buy-fills state: the tick at 3
fills the Sell at 3 through `sellStep` against the oldest cheaper Buy. -/
theorem sell_fill_spec_witness :
    (stSellW.lower_price ≤ 3 ∧ (3 : ℚ) ≤ stSellW.upper_price) ∧
    (update_grid_with_price stSellW 3 9).1.completed_orders =
      ((sellFills 3 stSellW).reverse.foldl (sellStep 3 9)
        (stSellW.completed_orders ++
          (buyFills 3 stSellW).reverse.map (fillOrder 3 9),
          stSellW.total_profit)).1 ∧
    (update_grid_with_price stSellW 3 9).1.total_profit =
      ((sellFills 3 stSellW).reverse.foldl (sellStep 3 9)
        (stSellW.completed_orders ++
          (buyFills 3 stSellW).reverse.map (fillOrder 3 9),
          stSellW.total_profit)).2 :=
  ⟨⟨by norm_num [stSellW], by norm_num [stSellW]⟩,
   (sell_fill_spec stSellW 3 9 (by norm_num [stSellW])
      (by norm_num [stSellW])).1,
   (sell_fill_spec stSellW 3 9 (by norm_num [stSellW])
      (by norm_num [stSellW])).2⟩

/-- Every chain liquidity constant is positive. -/
lemma liquidityK_pos (chain : String) : 0 < liquidityK chain := by
  unfold liquidityK
  split_ifs <;> norm_num

/-- C8: for a fixed chain, `calculate_price_impact` is strictly increasing
in the trade size over nonnegative sizes: the linear base factor grows
strictly and the nonlinear factor `1 + (size/1e6)^1.5` is positive and
non-decreasing. -/
theorem calculate_price_impact_strict_mono (chain : String) (s1 s2 : ℝ)
    (h0 : 0 ≤ s1) (h12 : s1 < s2) :
    calculate_price_impact s1 chain < calculate_price_impact s2 chain := by
  have hK : 0 < liquidityK chain := liquidityK_pos chain
  unfold calculate_price_impact
  have h1 : 0 ≤ s1 / liquidityK chain := div_nonneg h0 hK.le
  have h2 : s1 / liquidityK chain < s2 / liquidityK chain := by gcongr
  have h3 : Real.sqrt ((s1 / 1000000) ^ 3) ≤
      Real.sqrt ((s2 / 1000000) ^ 3) := by
    apply Real.sqrt_le_sqrt
    have hle : s1 / 1000000 ≤ s2 / 1000000 := by linarith
    have h0' : (0 : ℝ) ≤ s1 / 1000000 := by positivity
    exact pow_le_pow_left₀ h0' hle 3
  have h4 : s1 / liquidityK chain * (1 + Real.sqrt ((s1 / 1000000) ^ 3)) ≤
      s1 / liquidityK chain * (1 + Real.sqrt ((s2 / 1000000) ^ 3)) :=
    mul_le_mul_of_nonneg_left (by linarith) h1
  have h5 : s1 / liquidityK chain * (1 + Real.sqrt ((s2 / 1000000) ^ 3)) <
      s2 / liquidityK chain * (1 + Real.sqrt ((s2 / 1000000) ^ 3)) := by
    have hpos : 0 < 1 + Real.sqrt ((s2 / 1000000) ^ 3) := by positivity
    exact mul_lt_mul_of_pos_right h2 hpos
  linarith

/-- Witness for C8 at the concrete sizes 0 < 1 on solana. -/
theorem calculate_price_impact_strict_mono_witness :
    calculate_price_impact 0 "solana" < calculate_price_impact 1 "solana" :=
  calculate_price_impact_strict_mono "solana" 0 1 le_rfl (by norm_num)

end TradingEngine
